import Mathlib

/-!
Verification development for the EROFS snapshotter core
(`pkg/snapshotter/snapshotter.go`, `pkg/snapshotter/snapshotter_linux.go`,
`internal/snapshotter/labels.go`, `internal/snapshotter/mounts.go`).

The Go code is shallowly embedded: the filesystem and the metadata store are
explicit data, every external effect whose outcome the code inspects (syscall
failures, subprocess exit codes, mount probes) is driven by an `Oracle`
record, and each Go function is translated into a pure Lean function from a
world state to a result and a new world state.  Machine integers only occur
as sizes and counts and never overflow in the code paths modelled, so they
are embedded as `Nat`.
-/

set_option maxRecDepth 10000

deriving instance DecidableEq for Except

namespace Erofs

/-- A filesystem path, as the list of components below the filesystem root
(the embedding of the `/`-separated strings built with `filepath.Join`). -/
abbrev FPath := List String

/-- Render a path as the absolute string the Go code passes around. -/
def pathStr (p : FPath) : String := "/" ++ String.intercalate "/" p

/-- Metadata of a regular file in the model: its size, the `FS_IMMUTABLE_FL`
inode flag, whether fsverity is enabled on it, and - when the file was
formatted by `mkfs.ext4` - the argument vector it was formatted with. -/
structure FileMeta where
  size : Nat := 0
  immutableFl : Bool := false
  verity : Bool := false
  ext4Args : Option (List String) := none
deriving DecidableEq, Repr

/-- The filesystem state: regular files with metadata, directories, and the
set of targets currently carrying a mount (for `mountinfo.Mounted` and the
block executor). -/
structure FS where
  files : List (FPath × FileMeta) := []
  dirs : List FPath := []
deriving DecidableEq, Repr

namespace FS

def lookupFile (fs : FS) (p : FPath) : Option FileMeta :=
  (fs.files.find? (fun e => e.1 == p)).map (fun e => e.2)

def dirExists (fs : FS) (p : FPath) : Bool := fs.dirs.contains p

def pathExists (fs : FS) (p : FPath) : Bool :=
  (fs.lookupFile p).isSome || fs.dirExists p

def mkdir (fs : FS) (p : FPath) : FS := { fs with dirs := p :: fs.dirs }

def createFile (fs : FS) (p : FPath) (m : FileMeta) : FS :=
  { fs with files := (p, m) :: fs.files.filter (fun e => !(e.1 == p)) }

def removeFile (fs : FS) (p : FPath) : FS :=
  { fs with files := fs.files.filter (fun e => !(e.1 == p)) }

/-- `os.RemoveAll`: remove the tree rooted at `p` (the path itself and
everything below it). -/
def removeAll (fs : FS) (p : FPath) : FS :=
  { files := fs.files.filter (fun e => !(p.isPrefixOf e.1)),
    dirs := fs.dirs.filter (fun d => !(p.isPrefixOf d)) }

def replaceRoot (old new q : FPath) : FPath :=
  if old.isPrefixOf q then new ++ q.drop old.length else q

/-- `os.Rename` of a directory: every entry below `old` moves below `new`. -/
def rename (fs : FS) (old new : FPath) : FS :=
  { files := fs.files.map (fun e => (replaceRoot old new e.1, e.2)),
    dirs := fs.dirs.map (replaceRoot old new) }

/-- Remove the entries inside directory `p`, keeping `p` itself
(`Readdirnames` followed by `os.RemoveAll` of each entry). -/
def removeChildren (fs : FS) (p : FPath) : FS :=
  { files := fs.files.filter (fun e => !(p.isPrefixOf e.1 && e.1 != p)),
    dirs := fs.dirs.filter (fun d => !(p.isPrefixOf d && d != p)) }

/-- No file or directory lies at or below `p`. -/
def noSub (fs : FS) (p : FPath) : Bool :=
  fs.files.all (fun e => !(p.isPrefixOf e.1)) && fs.dirs.all (fun d => !(p.isPrefixOf d))

end FS

/-- Snapshot kinds (`snapshots.Kind`). -/
inductive Kind
  | view
  | active
  | committed
deriving DecidableEq, Repr

/-- Error kinds surfaced by the code (`errdefs` plus wrapped system errors). -/
inductive GoErr
  | alreadyExists
  | notFound
  | invalidArgument
  | notImplemented
  | sys (msg : String)
deriving DecidableEq, Repr

/-- A snapshot record in the metadata store (`snapshots.Info` together with
the internal id and parent-id chain kept by `storage`). -/
structure SnapInfo where
  id : String
  kind : Kind
  parent : String
  parentIDs : List String
  labels : List (String × String)
deriving DecidableEq, Repr

/-- The transactional metadata store: records keyed by snapshot key, plus the
id-allocation counter (ids are never reused). -/
structure Store where
  recs : List (String × SnapInfo) := []
  nextID : Nat := 1
deriving DecidableEq, Repr

def Store.lookup (st : Store) (key : String) : Option SnapInfo :=
  (st.recs.find? (fun e => e.1 == key)).map (fun e => e.2)

/-- `storage.Snapshot`: what `storage.CreateSnapshot`/`GetSnapshot` return. -/
structure Snapshot where
  id : String
  kind : Kind
  parentIDs : List String
deriving DecidableEq, Repr

def labelGet (ls : List (String × String)) (k : String) : Option String :=
  (ls.find? (fun e => e.1 == k)).map (fun e => e.2)

def labelSet (ls : List (String × String)) (k v : String) : List (String × String) :=
  (k, v) :: ls.filter (fun e => !(e.1 == k))

/-- `storage.CreateSnapshot`: fails with AlreadyExists on a duplicate key,
NotFound when the parent is absent, InvalidArgument when the parent exists
but is not committed; otherwise allocates a fresh id and records the
newest-first parent-id chain. -/
def storageCreateSnapshot (st : Store) (kind : Kind) (key parent : String)
    (labels : List (String × String)) : Except GoErr (Store × Snapshot) :=
  if (st.lookup key).isSome then .error .alreadyExists
  else
    match (if parent == "" then .ok [] else
      match st.lookup parent with
      | none => .error .notFound
      | some p =>
        if p.kind = Kind.committed then .ok (p.id :: p.parentIDs)
        else .error .invalidArgument : Except GoErr (List String)) with
    | .error e => .error e
    | .ok pids =>
      let id := toString st.nextID
      let info : SnapInfo := ⟨id, kind, parent, pids, labels⟩
      .ok ({ recs := (key, info) :: st.recs, nextID := st.nextID + 1 }, ⟨id, kind, pids⟩)

/-- `storage.GetInfo` / `storage.GetSnapshot`. -/
def storageGetInfo (st : Store) (key : String) : Except GoErr SnapInfo :=
  match st.lookup key with
  | none => .error .notFound
  | some info => .ok info

/-- `storage.CommitActive`: the active record for `key` is replaced by a
committed record under `name`, which receives the labels supplied through
the commit options. -/
def storageCommitActive (st : Store) (key name : String) (usage : Nat)
    (labels : List (String × String)) : Except GoErr Store :=
  match st.lookup key with
  | none => .error .notFound
  | some r =>
    if r.kind ≠ Kind.active then .error .invalidArgument
    else if (st.lookup name).isSome then .error .alreadyExists
    else
      let _ := usage
      .ok { recs := (name, { r with kind := Kind.committed, labels := labels }) ::
              st.recs.filter (fun e => !(e.1 == key)),
            nextID := st.nextID }

/-- A mount description (`mount.Mount`). -/
structure Mount where
  source : String
  type : String
  options : List String
deriving DecidableEq, Repr

/-- The whole world a snapshotter call acts on: the filesystem, the metadata
store, and the list of (mount, target) pairs applied by `mount.All`. -/
structure World where
  fs : FS
  store : Store
  mounted : List (Mount × FPath) := []
deriving DecidableEq, Repr

/-- Outcomes of the external effects the code inspects.  A `true` field means
the corresponding syscall or subprocess succeeds. -/
structure Oracle where
  tempName : String := "new-120287"
  mkdirTempOk : Bool := true
  mkdirFsOk : Bool := true
  mkdirWorkOk : Bool := true
  markerOk : Bool := true
  chownOk : Bool := true
  renameOk : Bool := true
  txCommitOk : Bool := true
  mkfsErofsOk : Bool := true
  mkfsErofsSize : Nat := 1
  createOk : Bool := true
  truncateOk : Bool := true
  mkfsExt4Ok : Bool := true
  diffMkdirOk : Bool := true
  diffMarkerOk : Bool := true
  convertRes : Except GoErr Nat := .ok 1
  mountedAt : FPath → Bool := fun _ => false
  mountOk : Bool := true
  fsverityOk : Bool := true
  immutableOk : Bool := true

/-- Events recorded while `createSnapshot` runs, used to state ordering
properties between the directory rename and the transaction commit. -/
inductive Ev
  | recordCreated (key : String)
  | renamed
  | txCommitted
deriving DecidableEq, Repr

/-- The snapshotter configuration (`snapshotter` struct fields). -/
structure Snapshotter where
  root : FPath
  ovlOptions : List String := []
  enableFsverity : Bool := false
  setImmutable : Bool := false
  defaultWritable : Nat := 0
  fsMergeThreshold : Nat := 0
deriving Repr

/-- `blockMode: config.defaultSize > 0`. -/
def Snapshotter.blockMode (s : Snapshotter) : Bool := decide (0 < s.defaultWritable)

def Snapshotter.snapshotsDir (s : Snapshotter) : FPath := s.root ++ ["snapshots"]

def Snapshotter.upperPath (s : Snapshotter) (id : String) : FPath :=
  s.root ++ ["snapshots", id, "fs"]

def Snapshotter.upperDir (s : Snapshotter) (id : String) : FPath :=
  if s.blockMode then s.upperPath id ++ ["rw", "upper"] else s.upperPath id

def Snapshotter.workPath (s : Snapshotter) (id : String) : FPath :=
  s.root ++ ["snapshots", id, "work"]

def Snapshotter.workDir (s : Snapshotter) (id : String) : FPath :=
  if s.blockMode then s.upperPath id ++ ["rw", "work"] else s.workPath id

def Snapshotter.writablePath (s : Snapshotter) (id : String) : FPath :=
  s.root ++ ["snapshots", id, "rwlayer.img"]

def Snapshotter.layerBlobPath (s : Snapshotter) (id : String) : FPath :=
  s.root ++ ["snapshots", id, "layer.erofs"]

def Snapshotter.fsMetaPath (s : Snapshotter) (id : String) : FPath :=
  s.root ++ ["snapshots", id, "fsmeta.erofs"]

/-- `erofsLayerMarker`. -/
def erofsLayerMarker : String := ".erofslayer"

/-- `extractLabel`. -/
def extractLabel : String := "containerd.io/snapshot/erofs.extract"

/-- `path.Base` restricted to the slash-separated, non-slash-terminated
keys the snapshotter receives: the characters after the last `/`. -/
def pathBase (key : String) : String :=
  ⟨key.data.foldl (fun acc c => if c = '/' then [] else acc ++ [c]) []⟩

/-- `isExtractKey`: the key's final path segment begins with
`snapshots.UnpackKeyPrefix` (the string `extract`). -/
def isExtractKey (key : String) : Bool :=
  "extract".data.isPrefixOf (pathBase key).data

/-- `isExtractSnapshot`: the snapshot metadata carries `extractLabel=true`. -/
def isExtractSnapshot (info : SnapInfo) : Bool :=
  labelGet info.labels extractLabel == some "true"

/-- The `\x7b\x7b mount i \x7d\x7d` placeholder string. -/
def tmplMount (i : Nat) : String := "\x7b\x7b mount " ++ toString i ++ " \x7d\x7d"

/-- The `\x7b\x7b overlay i j \x7d\x7d` placeholder string. -/
def tmplOverlay (i j : Nat) : String :=
  "\x7b\x7b overlay " ++ toString i ++ " " ++ toString j ++ " \x7d\x7d"

/-- `lowerPath`: the committed layer blob for `id`, or an error when the
blob file does not exist. -/
def Snapshotter.lowerPath (s : Snapshotter) (fs : FS) (id : String) :
    Except GoErr FPath :=
  match fs.lookupFile (s.layerBlobPath id) with
  | none => .error (.sys "failed to find valid erofs layer blob")
  | some _ => .ok (s.layerBlobPath id)

/-- `verifyFsverity`. -/
def Snapshotter.verifyFsverity (s : Snapshotter) (fs : FS) (p : FPath) :
    Except GoErr Unit :=
  if !s.enableFsverity then .ok ()
  else
    match fs.lookupFile p with
    | none => .error (.sys "failed to check fsverity status")
    | some m => if m.verity then .ok () else .error (.sys "fsverity is not enabled")

/-- `mountFsMeta`: in directory mode, when a non-zero-size `fsmeta.erofs`
exists at parent index `i` and every blob from the oldest parent down to
index `i` exists with a non-zero size, returns the single erofs mount on the
fsmeta file with one `device=` option per layer, appended from the oldest
parent up to index `i`. -/
def Snapshotter.mountFsMeta (s : Snapshotter) (fs : FS) (snap : Snapshot)
    (i : Nat) : Option Mount :=
  if s.blockMode then none
  else
    let mergedMeta := s.fsMetaPath (snap.parentIDs.getD i "")
    match fs.lookupFile mergedMeta with
    | none => none
    | some fi =>
      if fi.size = 0 then none
      else
        -- the Go loop `for j := len(ParentIDs)-1; j >= i; j--`
        let idxs := ((List.range snap.parentIDs.length).filter (fun j => i ≤ j)).reverse
        let opts? := idxs.foldl
          (fun acc j =>
            match acc with
            | none => none
            | some opts =>
              let blob := s.layerBlobPath (snap.parentIDs.getD j "")
              match fs.lookupFile blob with
              | none => none
              | some bi =>
                if bi.size = 0 then none
                else some (opts ++ ["device=" ++ pathStr blob]))
          (some ["ro", "loop"])
        match opts? with
        | none => none
        | some opts => some ⟨pathStr mergedMeta, "erofs", opts⟩

/-- `singleLayerMounts`: mounts for a snapshot with no parent layers. -/
def Snapshotter.singleLayerMounts (s : Snapshotter) (fs : FS) (snap : Snapshot)
    (options : List String) : Except GoErr (List Mount) :=
  match s.lowerPath fs snap.id with
  | .ok layerBlob =>
    if snap.kind ≠ Kind.view then
      .error (.sys "only works for snapshots.KindView on a committed snapshot")
    else
      match (if s.enableFsverity then s.verifyFsverity fs layerBlob else .ok ()) with
      | .error e => .error e
      | .ok _ => .ok [⟨pathStr layerBlob, "erofs", ["ro", "loop"]⟩]
  | .error _ =>
    let roFlag := if snap.kind = Kind.view then "ro" else "rw"
    if s.blockMode then
      let writableMount : Mount :=
        if (fs.lookupFile (s.writablePath snap.id)).isSome then
          ⟨pathStr (s.writablePath snap.id), "ext4", [roFlag, "loop"]⟩
        else
          ⟨pathStr (s.writablePath snap.id), "mkfs/ext4",
            ["X-containerd.mkfs.fs=ext4",
             "X-containerd.mkfs.size=" ++ toString s.defaultWritable,
             roFlag, "loop"]⟩
      .ok [writableMount,
        ⟨tmplMount 0 ++ "/upper", "format/mkdir/bind",
          options ++ ["X-containerd.mkdir.path=" ++ tmplMount 0 ++ "/upper:0755",
            roFlag, "rbind"]⟩]
    else
      .ok [⟨pathStr (s.upperPath snap.id), "bind", options ++ [roFlag, "rbind"]⟩]

/-- `activeLayerMounts`: the initial mounts and overlay options for an
active snapshot with parents. -/
def Snapshotter.activeLayerMounts (s : Snapshotter) (fs : FS) (snap : Snapshot)
    (options : List String) : List Mount × List String :=
  if s.blockMode then
    let m : Mount :=
      if (fs.lookupFile (s.writablePath snap.id)).isSome then
        ⟨pathStr (s.writablePath snap.id), "ext4", ["rw", "loop"]⟩
      else
        ⟨pathStr (s.writablePath snap.id), "mkfs/ext4",
          ["X-containerd.mkfs.fs=ext4",
           "X-containerd.mkfs.size=" ++ toString s.defaultWritable,
           "rw", "loop"]⟩
    ([m],
      options ++
        ["X-containerd.mkdir.path=" ++ tmplMount 0 ++ "/upper:0755",
         "X-containerd.mkdir.path=" ++ tmplMount 0 ++ "/work:0755",
         "workdir=" ++ tmplMount 0 ++ "/work",
         "upperdir=" ++ tmplMount 0 ++ "/upper"])
  else
    ([],
      options ++
        ["workdir=" ++ pathStr (s.workPath snap.id),
         "upperdir=" ++ pathStr (s.upperPath snap.id)])

/-- The lower-layer loop of `templateMounts`: iterate over the parent
indices, short-circuiting into a single fsmeta mount when `mountFsMeta`
succeeds (with `first` re-pointed at it) and otherwise appending one
`erofs ro,loop` mount per layer blob. -/
def Snapshotter.lowerLoop (s : Snapshotter) (fs : FS) (snap : Snapshot) :
    List Nat → List Mount → Nat → Except GoErr (List Mount × Nat)
  | [], acc, first => .ok (acc, first)
  | i :: rest, acc, first =>
    match (if 0 < s.fsMergeThreshold then s.mountFsMeta fs snap i else none) with
    | some m => .ok (acc ++ [m], acc.length)
    | none =>
      match s.lowerPath fs (snap.parentIDs.getD i "") with
      | .error e => .error e
      | .ok blob =>
        s.lowerLoop fs snap rest (acc ++ [⟨pathStr blob, "erofs", ["ro", "loop"]⟩]) first

/-- `templateMounts`: the pure mount planner. -/
def Snapshotter.templateMounts (s : Snapshotter) (fs : FS) (snap : Snapshot) :
    Except GoErr (List Mount) :=
  let options : List String := []
  if snap.parentIDs.length = 0 then s.singleLayerMounts fs snap options
  else
    match (if snap.kind = Kind.active then
        .ok (some (s.activeLayerMounts fs snap options))
      else if snap.parentIDs.length = 1 then
        match s.lowerPath fs (snap.parentIDs.getD 0 "") with
        | .error e => .error e
        | .ok _ => .ok none
      else .ok (some ([], options)) : Except GoErr (Option (List Mount × List String))) with
    | .error e => .error e
    | .ok none =>
      -- single parent view: return the erofs mount directly
      match s.lowerPath fs (snap.parentIDs.getD 0 "") with
      | .error e => .error e
      | .ok blob => .ok [⟨pathStr blob, "erofs", ["ro", "loop"]⟩]
    | .ok (some (mounts0, options0)) =>
      let first0 := mounts0.length
      match s.lowerLoop fs snap (List.range snap.parentIDs.length) mounts0 first0 with
      | .error e => .error e
      | .ok (mounts1, first) =>
        if mounts1.length - first = 1 ∧ snap.kind = Kind.view then .ok mounts1
        else
          let options1 := options0 ++
            [if mounts1.length - first = 1 then "lowerdir=" ++ tmplMount first
             else "lowerdir=" ++ tmplOverlay first (mounts1.length - 1)]
          let options2 := if snap.kind = Kind.view then options1 ++ ["ro"] else options1
          let options3 := options2 ++ s.ovlOptions
          .ok (mounts1 ++ [⟨"overlay", "format/mkdir/overlay", options3⟩])

/-- `ensureMarkerFile`: exclusive-create of the marker file; an existing
path is success. -/
def ensureMarkerFile (ok : Bool) (fs : FS) (p : FPath) : Except GoErr Unit × FS :=
  if fs.pathExists p then (.ok (), fs)
  else if ok then (.ok (), fs.createFile p {}) else (.error (.sys "open marker"), fs)

/-- `diffMounts`: the bind mount handed to the differ for extract
snapshots, after ensuring the snapshot directory and its marker exist. -/
def Snapshotter.diffMounts (s : Snapshotter) (o : Oracle) (fs : FS)
    (snap : Snapshot) : Except GoErr (List Mount) × FS :=
  let upperRoot := s.upperPath snap.id
  let layerRoot := s.root ++ ["snapshots", snap.id]
  if !o.diffMkdirOk then (.error (.sys "failed to create upper root"), fs)
  else
    let fs1 := fs.mkdir upperRoot
    match ensureMarkerFile o.diffMarkerOk fs1 (layerRoot ++ [erofsLayerMarker]) with
    | (.error e, fs2) => (.error e, fs2)
    | (.ok _, fs2) => (.ok [⟨pathStr upperRoot, "bind", ["rw", "rbind"]⟩], fs2)

/-- `mounts`: block-mode active extract snapshots get the diff mount,
everything else goes through `templateMounts`. -/
def Snapshotter.mounts (s : Snapshotter) (o : Oracle) (fs : FS) (snap : Snapshot)
    (info : SnapInfo) : Except GoErr (List Mount) × FS :=
  if s.blockMode ∧ snap.kind = Kind.active then
    if isExtractSnapshot info then s.diffMounts o fs snap
    else (s.templateMounts fs snap, fs)
  else (s.templateMounts fs snap, fs)

/-- `prepareDirectory`: create the staging directory `new-…` under the
snapshots directory, with its `fs` (and, in directory mode, `work`)
subdirectories and - for active snapshots - the `.erofslayer` marker.  The
temp-dir path is reported even when a later step fails, so the caller's
deferred cleanup can remove it. -/
def Snapshotter.prepareDirectory (s : Snapshotter) (o : Oracle) (fs : FS)
    (kind : Kind) : Option FPath × Except GoErr Unit × FS :=
  if !o.mkdirTempOk then (none, .error (.sys "failed to create temp dir"), fs)
  else
    let td := s.snapshotsDir ++ [o.tempName]
    let fs1 := fs.mkdir td
    if !o.mkdirFsOk then (some td, .error (.sys "mkdir fs"), fs1)
    else
      let fs2 := fs1.mkdir (td ++ ["fs"])
      if kind = Kind.active then
        if !s.blockMode ∧ !o.mkdirWorkOk then (some td, .error (.sys "mkdir work"), fs2)
        else
          let fs3 := if !s.blockMode then fs2.mkdir (td ++ ["work"]) else fs2
          match ensureMarkerFile o.markerOk fs3 (td ++ [erofsLayerMarker]) with
          | (.error e, fs4) => (some td, .error e, fs4)
          | (.ok _, fs4) => (some td, .ok (), fs4)
      else (some td, .ok (), fs2)

/-- `upperDirectoryPermission`: stat the parent upperdir and chown the new
upperdir to its owner.  Ownership is not tracked by the model, so the only
observable outcomes are the two failure cases. -/
def upperDirectoryPermission (o : Oracle) (fs : FS) (parent : FPath) :
    Except GoErr Unit :=
  if !fs.dirExists parent then .error (.sys "failed to stat parent")
  else if !o.chownOk then .error (.sys "failed to chown")
  else .ok ()

/-- The argument vector `createWritableLayer` hands to `mkfs.ext4`. -/
def mkfsExt4Args (p : FPath) : List String :=
  ["-q", "-F", "-L", "rwlayer", "-E",
   "nodiscard,lazy_itable_init=1,lazy_journal_init=1", pathStr p]

/-- `createWritableLayer`: create `rwlayer.img` as a sparse file of the
configured size and format it as ext4; on a truncate or mkfs failure the
file is removed. -/
def Snapshotter.createWritableLayer (s : Snapshotter) (o : Oracle) (fs : FS)
    (id : String) : Except GoErr Unit × FS :=
  let p := s.writablePath id
  if !o.createOk then (.error (.sys "failed to create writable layer file"), fs)
  else
    let fs1 := fs.createFile p {}
    if !o.truncateOk then (.error (.sys "failed to allocate writable layer"), fs1.removeFile p)
    else
      let fs2 := fs1.createFile p { size := s.defaultWritable }
      if !o.mkfsExt4Ok then (.error (.sys "failed to format ext4"), fs2.removeFile p)
      else
        (.ok (), fs2.createFile p
          { size := s.defaultWritable, ext4Args := some (mkfsExt4Args p) })

/-- `generateFsMeta`: when the parent chain is strictly longer than the
configured threshold, exclusively create the `fsmeta.erofs` placeholder at
the newest parent (silently returning if it already exists), gather the
layer blobs from oldest to newest, run `mkfs.erofs`, and atomically rename
the produced file over the placeholder.  All failures are swallowed. -/
def Snapshotter.generateFsMeta (s : Snapshotter) (o : Oracle) (fs : FS)
    (snapIDs : List String) : FS :=
  if s.fsMergeThreshold = 0 ∨ snapIDs.length ≤ s.fsMergeThreshold then fs
  else
    match snapIDs with
    | [] => fs
    | id0 :: _ =>
      let mergedMeta := s.fsMetaPath id0
      if fs.pathExists mergedMeta then fs
      else
        let fs1 := fs.createFile mergedMeta { size := 0 }
        if !(snapIDs.all (fun i => (fs1.lookupFile (s.layerBlobPath i)).isSome)) then fs1
        else if !o.mkfsErofsOk then fs1
        else fs1.createFile mergedMeta { size := o.mkfsErofsSize }

/-- The raw result of `createSnapshot` before the deferred cleanup runs:
the outcome, the world, the values of the `td` and `path` variables at
defer time, and the recorded events. -/
structure PrepOut where
  res : Except GoErr (List Mount)
  w : World
  td : Option FPath
  pathv : Option FPath
  tr : List Ev
deriving Repr

/-- The body of `createSnapshot`: staging-directory creation, the write
transaction (record creation, permission propagation, rename into place,
commit), the opportunistic fsmeta generation, the eager writable layer in
block mode, and the mount plan. -/
def Snapshotter.createSnapshotRaw (s : Snapshotter) (o : Oracle) (w : World)
    (kind : Kind) (key parent : String) (labels0 : List (String × String)) :
    PrepOut :=
  match s.prepareDirectory o w.fs kind with
  | (td?, .error e, fs) => ⟨.error e, { w with fs := fs }, td?, none, []⟩
  | (none, .ok _, fs) => ⟨.error (.sys "impossible"), { w with fs := fs }, none, none, []⟩
  | (some td, .ok _, fs) =>
    let labels := if isExtractKey key then labelSet labels0 extractLabel "true" else labels0
    -- the write transaction: on any failure of the body or of the commit the
    -- store reverts to `w.store`, while filesystem effects remain
    match storageCreateSnapshot w.store kind key parent labels with
    | .error e => ⟨.error e, { w with fs := fs }, some td, none, []⟩
    | .ok (st1, snap) =>
      let tr0 := [Ev.recordCreated key]
      match storageGetInfo st1 key with
      | .error e => ⟨.error e, { w with fs := fs }, some td, none, tr0⟩
      | .ok info =>
        match (if 0 < snap.parentIDs.length then
            upperDirectoryPermission o fs (s.upperPath (snap.parentIDs.getD 0 ""))
          else .ok ()) with
        | .error e => ⟨.error e, { w with fs := fs }, some td, none, tr0⟩
        | .ok _ =>
          let pathv := s.snapshotsDir ++ [snap.id]
          if !o.renameOk then
            ⟨.error (.sys "failed to rename"), { w with fs := fs }, some td, some pathv, tr0⟩
          else
            let fs1 := fs.rename td pathv
            let tr1 := tr0 ++ [Ev.renamed]
            if !o.txCommitOk then
              ⟨.error (.sys "tx commit"), { w with fs := fs1 }, none, some pathv, tr1⟩
            else
              let tr2 := tr1 ++ [Ev.txCommitted]
              let fs2 := if !isExtractKey key then s.generateFsMeta o fs1 snap.parentIDs
                else fs1
              match (if kind = Kind.active ∧ s.blockMode ∧ !isExtractKey key then
                  s.createWritableLayer o fs2 snap.id
                else (.ok (), fs2)) with
              | (.error e, fs3) =>
                ⟨.error e, { fs := fs3, store := st1, mounted := w.mounted }, none, some pathv, tr2⟩
              | (.ok _, fs3) =>
                match s.mounts o fs3 snap info with
                | (.error e, fs4) =>
                  ⟨.error e, { fs := fs4, store := st1, mounted := w.mounted }, none, some pathv, tr2⟩
                | (.ok ms, fs4) =>
                  ⟨.ok ms, { fs := fs4, store := st1, mounted := w.mounted }, none, some pathv, tr2⟩

/-- The filesystem left behind by `createSnapshot`'s deferred cleanup: the
temp directory (when still assigned) and the final snapshot directory (when
assigned) are removed from the raw result's filesystem. -/
def PrepOut.deferFS (r : PrepOut) : FS :=
  let fs1 := match r.td with
    | some td => r.w.fs.removeAll td
    | none => r.w.fs
  match r.pathv with
  | some p => fs1.removeAll p
  | none => fs1

/-- `createSnapshot` with its deferred cleanup applied: on error the temp
directory (if still assigned) and the renamed snapshot directory (if
assigned) are removed. -/
def Snapshotter.createSnapshot (s : Snapshotter) (o : Oracle) (w : World)
    (kind : Kind) (key parent : String) (labels0 : List (String × String)) :
    Except GoErr (List Mount) × World × List Ev :=
  let r := s.createSnapshotRaw o w kind key parent labels0
  match r.res with
  | .ok ms => (.ok ms, r.w, r.tr)
  | .error e =>
    let fs1 := match r.td with
      | some td => r.w.fs.removeAll td
      | none => r.w.fs
    let fs2 := match r.pathv with
      | some p => fs1.removeAll p
      | none => fs1
    (.error e, { r.w with fs := fs2 }, r.tr)

/-- `Prepare`. -/
def Snapshotter.Prepare (s : Snapshotter) (o : Oracle) (w : World)
    (key parent : String) (labels : List (String × String)) :
    Except GoErr (List Mount) × World × List Ev :=
  s.createSnapshot o w Kind.active key parent labels

/-- `View`. -/
def Snapshotter.View (s : Snapshotter) (o : Oracle) (w : World)
    (key parent : String) (labels : List (String × String)) :
    Except GoErr (List Mount) × World × List Ev :=
  s.createSnapshot o w Kind.view key parent labels

/-- `collectLowerMounts` (block executor): the per-layer erofs mounts, with
the fsmeta short-circuit. -/
def Snapshotter.collectLowerMounts (s : Snapshotter) (fs : FS) (snap : Snapshot) :
    List Nat → List Mount → Except GoErr (List Mount)
  | [], acc => .ok acc
  | i :: rest, acc =>
    match (if 0 < s.fsMergeThreshold then s.mountFsMeta fs snap i else none) with
    | some m => .ok (acc ++ [m])
    | none =>
      match s.lowerPath fs (snap.parentIDs.getD i "") with
      | .error e => .error e
      | .ok blob =>
        s.collectLowerMounts fs snap rest (acc ++ [⟨pathStr blob, "erofs", ["ro", "loop"]⟩])

/-- `mountLowerLayers` (block executor): mount each lower under
`lowerRoot/<i>` unless already mounted, returning the mountpoints in
order. -/
def mountLowerLayers (o : Oracle) (w : World) (lowerRoot : FPath) :
    List Mount → Nat → Except GoErr (List FPath) × World
  | [], _ => (.ok [], w)
  | m :: rest, i =>
    let target := lowerRoot ++ [toString i]
    let w1 := { w with fs := w.fs.mkdir target }
    if !o.mountedAt target ∧ !o.mountOk then
      (.error (.sys "failed to mount lower layer"), w1)
    else
      let w2 := if !o.mountedAt target then
          { w1 with mounted := w1.mounted ++ [(m, target)] }
        else w1
      match mountLowerLayers o w2 lowerRoot rest (i + 1) with
      | (.error e, w3) => (.error e, w3)
      | (.ok targets, w3) => (.ok (target :: targets), w3)

/-- `mountOverlay` (block executor): mount the lower layers, then the
overlay whose `lowerdir=` joins the lower mountpoints in collection order,
and return the single merged bind mount. -/
def Snapshotter.mountOverlay (s : Snapshotter) (o : Oracle) (w : World)
    (snap : Snapshot) (upperRoot upperDir workDir mergedDir : FPath) :
    Except GoErr (List Mount) × World :=
  match s.collectLowerMounts w.fs snap (List.range snap.parentIDs.length) [] with
  | .error e => (.error e, w)
  | .ok lowerMounts =>
    let lowerRoot := upperRoot ++ ["lower"]
    match mountLowerLayers o w lowerRoot lowerMounts 0 with
    | (.error e, w1) => (.error e, w1)
    | (.ok lowerDirs, w1) =>
      let options :=
        ["lowerdir=" ++ String.intercalate ":" (lowerDirs.map pathStr),
         "upperdir=" ++ pathStr upperDir,
         "workdir=" ++ pathStr workDir] ++ s.ovlOptions
      let overlay : Mount := ⟨"overlay", "overlay", options⟩
      if !o.mountOk then (.error (.sys "failed to mount overlay"), w1)
      else
        (.ok [⟨pathStr mergedDir, "bind", ["rw", "rbind"]⟩],
         { w1 with mounted := w1.mounted ++ [(overlay, mergedDir)] })

/-- `setImmutable` (Linux): open the file and set or clear
`FS_IMMUTABLE_FL`. -/
def setImmutable (fs : FS) (p : FPath) (enable : Bool) : Except GoErr Unit × FS :=
  match fs.lookupFile p with
  | none => (.error (.sys "failed to open"), fs)
  | some m => (.ok (), fs.createFile p { m with immutableFl := enable })

/-- `fsverity.Enable`. -/
def fsverityEnable (o : Oracle) (fs : FS) (p : FPath) : Except GoErr Unit × FS :=
  match fs.lookupFile p with
  | none => (.error (.sys "failed to enable fsverity"), fs)
  | some m =>
    if o.fsverityOk then (.ok (), fs.createFile p { m with verity := true })
    else (.error (.sys "failed to enable fsverity"), fs)

/-- `convertDirToErofs`: run the conversion tool, then remove the entries
inside the upperdir (keeping the directory itself). -/
def convertDirToErofs (o : Oracle) (fs : FS) (layerBlob upperDir : FPath) :
    Except GoErr Unit × FS :=
  match o.convertRes with
  | .error e => (.error e, fs)
  | .ok size =>
    let fs1 := fs.createFile layerBlob { size := size }
    if !fs1.dirExists upperDir then (.error (.sys "open upperdir"), fs1)
    else (.ok (), fs1.removeChildren upperDir)

/-- `cleanupActiveMounts`: tear down every mount staged under the snapshot's
upper root (merged, lower/<i>, rw). -/
def cleanupActiveMounts (w : World) (upper : FPath) : World :=
  { w with mounted := w.mounted.filter (fun e => !(upper.isPrefixOf e.2)) }

/-- `commitBlock`: produce the layer blob for a snapshot whose upperdir may
live inside the ext4 writable image; the rw mount is reused when present
and always torn down afterwards. -/
def Snapshotter.commitBlock (s : Snapshotter) (o : Oracle) (w : World)
    (layerBlob : FPath) (id : String) : Except GoErr Unit × World :=
  match w.fs.lookupFile (s.writablePath id) with
  | none =>
    let (r, fs1) := convertDirToErofs o w.fs layerBlob (s.upperPath id)
    (r, { w with fs := fs1 })
  | some _ =>
    let rwRoot := s.upperPath id ++ ["rw"]
    let w1 := { w with fs := w.fs.mkdir rwRoot }
    if !o.mountedAt rwRoot ∧ !o.mountOk then
      (.error (.sys "failed to mount writable layer"), w1)
    else
      let w2 := if !o.mountedAt rwRoot then
          { w1 with mounted := w1.mounted ++
              [(⟨pathStr (s.writablePath id), "ext4", ["ro", "loop", "noload"]⟩, rwRoot)] }
        else w1
      let upperDir := if w2.fs.dirExists (s.upperDir id) then s.upperDir id
        else s.upperPath id
      let (r, fs3) := convertDirToErofs o w2.fs layerBlob upperDir
      (r, cleanupActiveMounts { w2 with fs := fs3 } (s.upperPath id))

/-- `Commit`: locate or produce the layer blob, optionally enable fsverity
(fails the commit on error) and set `FS_IMMUTABLE_FL` (a failure is only
logged), then commit the active record inside a write transaction after
re-verifying the blob exists. -/
def Snapshotter.Commit (s : Snapshotter) (o : Oracle) (w : World)
    (name key : String) (labels : List (String × String)) :
    Except GoErr Unit × World :=
  match storageGetInfo w.store key with
  | .error e => (.error e, w)
  | .ok info0 =>
    let id := info0.id
    let layerBlob := s.layerBlobPath id
    let step1 : Except GoErr Unit × World :=
      if (w.fs.lookupFile layerBlob).isSome then (.ok (), w)
      else
        match s.commitBlock o w layerBlob id with
        | (.error ce, w1) =>
          if ce = GoErr.notImplemented then (.error (.sys "stat layer blob"), w1)
          else (.error ce, w1)
        | (.ok _, w1) => (.ok (), w1)
    match step1 with
    | (.error e, w1) => (.error e, w1)
    | (.ok _, w1) =>
      match (if s.enableFsverity then fsverityEnable o w1.fs layerBlob
        else (.ok (), w1.fs)) with
      | (.error e, fs2) => (.error e, { w1 with fs := fs2 })
      | (.ok _, fs2) =>
        let fs3 := if s.setImmutable then
            (if o.immutableOk then (Erofs.setImmutable fs2 layerBlob true).2 else fs2)
          else fs2
        let w3 := { w1 with fs := fs3 }
        -- the final write transaction
        match w3.fs.lookupFile layerBlob with
        | none => (.error (.sys "failed to get the converted erofs blob"), w3)
        | some bi =>
          match storageCommitActive w3.store key name bi.size labels with
          | .error e => (.error e, w3)
          | .ok st1 =>
            if o.txCommitOk then (.ok (), { w3 with store := st1 })
            else (.error (.sys "tx commit"), w3)

/-- `Stat`. -/
def Snapshotter.Stat (s : Snapshotter) (w : World) (key : String) :
    Except GoErr SnapInfo :=
  let _ := s
  storageGetInfo w.store key

/-! ### The internal (nexus) snapshotter

`internal/snapshotter` keeps its metadata in labels under the
`nexus-erofs-snapshotter/` namespace.  `mounts.go` (layer-blob discovery)
and `labels.go` are in the sources; the `Commit` wrapper that stamps the
labels is not, so it is modelled from the spec below. -/

namespace Nexus

/-- `LabelPrefix` of `labels.go` (the label namespace). -/
def labelNs : String := "nexus-erofs-snapshotter/"

/-- `LabelLayerBlobPath`. -/
def LabelLayerBlobPath : String := labelNs ++ "layer-blob-path"

/-- `fsmetaFilename`. -/
def fsmetaFilename : String := "fsmeta.erofs"

/-- `fallbackLayerBlobPath`: `snapshot-<id>.erofs` in the snapshot
directory, used when the differ did not provide a digest-named blob. -/
def fallbackLayerBlobPath (root : FPath) (id : String) : FPath :=
  root ++ ["snapshots", id, "snapshot-" ++ id ++ ".erofs"]

/-- Whether a file entry matches the glob `<root>/snapshots/<id>/*.erofs`,
excluding `fsmeta.erofs`. -/
def globErofs (root : FPath) (id : String) (p : FPath) : Bool :=
  decide (p.length = root.length + 3) &&
  (root ++ ["snapshots", id]).isPrefixOf p &&
  ".erofs".data.isSuffixOf (p.getLastD "").data &&
  p.getLastD "" != fsmetaFilename

/-- `findLayerBlobFromInfo`: prefer the `layer-blob-path` label when it
names an existing file, otherwise glob for `*.erofs` (excluding
`fsmeta.erofs`) in the snapshot directory. -/
def findLayerBlobFromInfo (root : FPath) (fs : FS) (id : String)
    (info : SnapInfo) : Option FPath :=
  let fromLabel : Option FPath :=
    match labelGet info.labels LabelLayerBlobPath with
    | some v =>
      if v ≠ "" then (fs.files.find? (fun e => pathStr e.1 == v)).map (fun e => e.1)
      else none
    | none => none
  match fromLabel with
  | some p => some p
  | none => (fs.files.find? (fun e => globErofs root id e.1)).map (fun e => e.1)

/-- Modelled from the spec: the internal snapshotter's `Commit`
(`internal/snapshotter/commit.go` is not among the sources; only its
tests, the label declarations and the blob-discovery helpers are).  Per
spec §4.B: if a layer blob already exists (located through
`findLayerBlobFromInfo`), use it as-is, otherwise convert the upper
directory to EROFS at the fallback path; whichever path taken, write the
committed blob's absolute path to the `layer-blob-path` label of the
record committed in the write transaction. -/
def Commit (root : FPath) (o : Oracle) (w : World) (name key : String) :
    Except GoErr Unit × World :=
  match storageGetInfo w.store key with
  | .error e => (.error e, w)
  | .ok info =>
    let id := info.id
    let blob? := findLayerBlobFromInfo root w.fs id info
    let step : Except GoErr FPath × FS :=
      match blob? with
      | some p => (.ok p, w.fs)
      | none =>
        let target := fallbackLayerBlobPath root id
        match convertDirToErofs o w.fs target (root ++ ["snapshots", id, "fs"]) with
        | (.error e, fs1) => (.error e, fs1)
        | (.ok _, fs1) => (.ok target, fs1)
    match step with
    | (.error e, fs1) => (.error e, { w with fs := fs1 })
    | (.ok blob, fs1) =>
      let labels := labelSet info.labels LabelLayerBlobPath (pathStr blob)
      let usage := ((fs1.lookupFile blob).map (fun m => m.size)).getD 0
      match storageCommitActive w.store key name usage labels with
      | .error e => (.error e, { w with fs := fs1 })
      | .ok st1 =>
        if o.txCommitOk then (.ok (), { w with fs := fs1, store := st1 })
        else (.error (.sys "tx commit"), { w with fs := fs1 })

end Nexus

/-! ### The layer-order label codec

`EncodeLayerOrder`/`DecodeLayerOrder` of `internal/snapshotter/labels.go`:
a JSON round trip of a digest list through `encoding/json` and
`digest.Parse`.  The JSON encoder and the `[]string` decoder are embedded
below; digests are embedded as their strings. -/

namespace LayerOrder

/-- The characters `encoding/json` escapes inside a string literal. -/
def hexDigitChar (n : Nat) : Char :=
  if n < 10 then Char.ofNat (48 + n) else Char.ofNat (87 + n)

/-- One character of Go's JSON string encoder. -/
def jsonEscapeChar (c : Char) : List Char :=
  if c = '"' then ['\\', '"']
  else if c = '\\' then ['\\', '\\']
  else if c = '\n' then ['\\', 'n']
  else if c = '\r' then ['\\', 'r']
  else if c = '\t' then ['\\', 't']
  else if c = '<' then ['\\', 'u', '0', '0', '3', 'c']
  else if c = '>' then ['\\', 'u', '0', '0', '3', 'e']
  else if c = '&' then ['\\', 'u', '0', '0', '2', '6']
  else if c.toNat < 32 then
    ['\\', 'u', '0', '0', hexDigitChar (c.toNat / 16), hexDigitChar (c.toNat % 16)]
  else if c.toNat = 0x2028 then ['\\', 'u', '2', '0', '2', '8']
  else if c.toNat = 0x2029 then ['\\', 'u', '2', '0', '2', '9']
  else [c]

/-- A quoted JSON string literal. -/
def jsonQuote (s : List Char) : List Char :=
  '"' :: (s.map jsonEscapeChar).flatten ++ ['"']

/-- Comma-joined list items. -/
def joinItems : List (List Char) → List Char
  | [] => []
  | [x] => x
  | x :: y :: r => x ++ ',' :: joinItems (y :: r)

/-- `json.Marshal` of a `[]string`. -/
def jsonMarshalStrings (strs : List String) : String :=
  ⟨'[' :: joinItems (strs.map (fun s => jsonQuote s.data)) ++ [']']⟩

/-- `EncodeLayerOrder`. -/
def EncodeLayerOrder (digests : List String) : String :=
  if digests = [] then "[]" else jsonMarshalStrings digests

def isWsChar (c : Char) : Bool := c = ' ' || c = '\t' || c = '\n' || c = '\r'

def skipWs (cs : List Char) : List Char := cs.dropWhile isWsChar

def parseHexDigit (c : Char) : Option Nat :=
  if '0' ≤ c ∧ c ≤ '9' then some (c.toNat - 48)
  else if 'a' ≤ c ∧ c ≤ 'f' then some (c.toNat - 87)
  else if 'A' ≤ c ∧ c ≤ 'F' then some (c.toNat - 55)
  else none

/-- Single-character JSON escapes. -/
def simpleEscape (e : Char) : Option Char :=
  if e = '"' then some '"'
  else if e = '\\' then some '\\'
  else if e = '/' then some '/'
  else if e = 'n' then some '\n'
  else if e = 't' then some '\t'
  else if e = 'r' then some '\r'
  else if e = 'b' then some (Char.ofNat 8)
  else if e = 'f' then some (Char.ofNat 12)
  else none

/-- Parse the body of a JSON string literal (after the opening quote),
returning the decoded characters and the input after the closing quote. -/
def parseStringBody : List Char → Option (List Char × List Char)
  | [] => none
  | '"' :: rest => some ([], rest)
  | '\\' :: 'u' :: h1 :: h2 :: h3 :: h4 :: rest =>
    (match parseHexDigit h1, parseHexDigit h2, parseHexDigit h3, parseHexDigit h4 with
     | some a, some b, some c, some d =>
       match parseStringBody rest with
       | none => none
       | some (cs, tail) => some (Char.ofNat (((a * 16 + b) * 16 + c) * 16 + d) :: cs, tail)
     | _, _, _, _ => none)
  | '\\' :: e :: rest =>
    (match simpleEscape e with
     | none => none
     | some c =>
       match parseStringBody rest with
       | none => none
       | some (cs, tail) => some (c :: cs, tail))
  | c :: rest =>
    if c.toNat < 32 then none
    else
      match parseStringBody rest with
      | none => none
      | some (cs, tail) => some (c :: cs, tail)

/-- Parse one array element that can be decoded into a `string`: a string
literal, or `null` (which `encoding/json` leaves as the empty string). -/
def parseElem (cs : List Char) : Option (String × List Char) :=
  match cs with
  | '"' :: rest =>
    match parseStringBody rest with
    | none => none
    | some (body, tail) => some (⟨body⟩, tail)
  | 'n' :: 'u' :: 'l' :: 'l' :: rest => some ("", rest)
  | _ => none

/-- Parse the comma-separated elements of a non-empty JSON array up to and
including the closing bracket. -/
def parseElems : Nat → List Char → Option (List String × List Char)
  | 0, _ => none
  | fuel + 1, cs =>
    match parseElem (skipWs cs) with
    | none => none
    | some (v, rest) =>
      match skipWs rest with
      | ']' :: tail => some ([v], tail)
      | ',' :: tail =>
        match parseElems fuel tail with
        | none => none
        | some (vs, tail2) => some (v :: vs, tail2)
      | _ => none

/-- `json.Unmarshal` into a `[]string`: `none` is a decode error. -/
def unmarshalStringArray (s : String) : Option (List String) :=
  match skipWs s.data with
  | '[' :: rest =>
    let rest1 := skipWs rest
    match rest1 with
    | ']' :: tail => if skipWs tail = [] then some [] else none
    | _ =>
      match parseElems (rest1.length + 1) rest1 with
      | none => none
      | some (vs, tail) => if skipWs tail = [] then some vs else none
  | 'n' :: 'u' :: 'l' :: 'l' :: tail => if skipWs tail = [] then some [] else none
  | _ => none

def isHexLowerDigit (c : Char) : Bool :=
  ('a' ≤ c && c ≤ 'f') || ('0' ≤ c && c ≤ '9')

/-- The hex length of the registered digest algorithms (`a.Size()*2`);
unregistered algorithms make `digest.Parse` fail. -/
def algoHexLen (a : String) : Option Nat :=
  if a = "sha256" then some 64
  else if a = "sha384" then some 96
  else if a = "sha512" then some 128
  else none

/-- Split a string at its first colon (`strings.Index(s, ":")`). -/
def splitFirstColon : List Char → Option (List Char × List Char)
  | [] => none
  | ':' :: rest => some ([], rest)
  | c :: rest =>
    match splitFirstColon rest with
    | none => none
    | some (a, b) => some (c :: a, b)

/-- `digest.Parse` succeeds: a registered algorithm name before the first
colon and a hex-encoded digest of exactly the algorithm's length after
it. -/
def digestValid (s : String) : Bool :=
  match splitFirstColon s.data with
  | none => false
  | some (alg, enc) =>
    alg != [] && enc != [] &&
      (match algoHexLen ⟨alg⟩ with
       | none => false
       | some n => decide (enc.length = n) && enc.all isHexLowerDigit)

/-- `DecodeLayerOrder`. -/
def DecodeLayerOrder (encoded : String) : List String :=
  if encoded = "" ∨ encoded = "[]" then []
  else
    match unmarshalStringArray encoded with
    | none => []
    | some strs => strs.filter digestValid

/-- Characters that survive the JSON encoder unchanged. -/
def jsonPlain (c : Char) : Bool :=
  c != '"' && c != '\\' && decide (32 ≤ c.toNat) &&
  c != '<' && c != '>' && c != '&' &&
  decide (c.toNat ≠ 0x2028) && decide (c.toNat ≠ 0x2029)

end LayerOrder

/-- The claim that every recorded `renamed` event is preceded by a
`txCommitted` event (the "rename happens only after the transaction
commits" reading of the spec). -/
def renameOnlyAfterCommit (tr : List Ev) : Prop :=
  ∀ i : Fin tr.length, tr.get i = Ev.renamed →
    ∃ j : Fin tr.length, j.val < i.val ∧ tr.get j = Ev.txCommitted

/-- No record in the store uses `a` as its id or in its parent-id chain
(fresh temp-dir names and freshly allocated ids satisfy this). -/
@[reducible] def freshName (st : Store) (a : String) : Prop :=
  ∀ e ∈ st.recs, e.2.id ≠ a ∧ ∀ pid ∈ e.2.parentIDs, pid ≠ a

/-- The `erofs ro,loop` lower mount on a layer blob. -/
def erofsLower (s : Snapshotter) (pid : String) : Mount :=
  ⟨pathStr (s.layerBlobPath pid), "erofs", ["ro", "loop"]⟩

/-! ### Concrete fixtures for witnesses and counterexamples -/

/-- A fresh world: empty store, only the snapshots directory on disk. -/
def w0 : World := { fs := { dirs := [["snapshots"]] }, store := {} }

/-- Directory-mode snapshotter rooted at `/`. -/
def sDir : Snapshotter := { root := [] }

/-- Block-mode snapshotter (512-byte writable layers for brevity). -/
def sBlk : Snapshotter := { root := [], defaultWritable := 512 }

/-- Directory-mode snapshotter with fsmeta merging enabled (threshold 1). -/
def sFsm : Snapshotter := { root := [], fsMergeThreshold := 1 }

/-- Block-mode snapshotter with fsmeta merging enabled (threshold 1). -/
def sFsmBlk : Snapshotter :=
  { root := [], defaultWritable := 512, fsMergeThreshold := 1 }

/-- All external effects succeed. -/
def oDef : Oracle := {}

/-- `mkfs.ext4` fails. -/
def oMkfsFail : Oracle := { mkfsExt4Ok := false }

/-- `mkfs.erofs` fails. -/
def oMkfsErofsFail : Oracle := { mkfsErofsOk := false }

/-- Setting `FS_IMMUTABLE_FL` fails. -/
def oImmFail : Oracle := { immutableOk := false }

/-- Enabling fsverity fails. -/
def oVerFail : Oracle := { fsverityOk := false }

/-- Two committed parents `p1` (immediate parent) and `p2` (oldest), both
with layer blobs, and a merged `fsmeta.erofs` at `p1`. -/
def fsFsm : FS :=
  { files := [(["snapshots", "p1", "fsmeta.erofs"], { size := 1 }),
              (["snapshots", "p1", "layer.erofs"], { size := 1 }),
              (["snapshots", "p2", "layer.erofs"], { size := 1 })],
    dirs := [["snapshots"]] }

/-- Two committed parents with layer blobs and no fsmeta. -/
def fsPlain : FS :=
  { files := [(["snapshots", "p1", "layer.erofs"], { size := 1 }),
              (["snapshots", "p2", "layer.erofs"], { size := 1 })],
    dirs := [["snapshots"]] }

/-- A view snapshot over the chain `p1` (newest) then `p2` (oldest). -/
def snapV : Snapshot := ⟨"9", Kind.view, ["p1", "p2"]⟩

/-- An active snapshot over the chain `p1` (newest) then `p2` (oldest). -/
def snapA : Snapshot := ⟨"9", Kind.active, ["p1", "p2"]⟩

/-- An active snapshot with the single parent `p1`. -/
def snapA1 : Snapshot := ⟨"9", Kind.active, ["p1"]⟩

/-- Metadata of an extract-labelled active snapshot over parent `p1`. -/
def infoExtract : SnapInfo :=
  ⟨"9", Kind.active, "p", ["p1"], [(extractLabel, "true")]⟩

/-- A world holding one active snapshot `k` (id 1) whose layer blob was
already produced by the differ, plus its upper directory. -/
def wActive : World :=
  { fs := { files := [(["snapshots", "1", "layer.erofs"], { size := 7 })],
            dirs := [["snapshots"], ["snapshots", "1"], ["snapshots", "1", "fs"]] },
    store := { recs := [("k", ⟨"1", Kind.active, "", [], []⟩)], nextID := 2 } }

/-- A world holding one active snapshot `k` (id 1) with an upper directory
and no layer blob (the walking-differ case). -/
def wActiveNoBlob : World :=
  { fs := { files := [],
            dirs := [["snapshots"], ["snapshots", "1"], ["snapshots", "1", "fs"]] },
    store := { recs := [("k", ⟨"1", Kind.active, "", [], []⟩)], nextID := 2 } }

/-- A directory-mode snapshotter configured to set IMMUTABLE_FL on commit. -/
def sImm : Snapshotter := { root := [], setImmutable := true }

/-- A directory-mode snapshotter with both IMMUTABLE_FL and fsverity
enabled. -/
def sImmFv : Snapshotter :=
  { root := [], setImmutable := true, enableFsverity := true }

/-! ## Helper lemmas -/

theorem isPrefixOf_eq_decide (p q : FPath) :
    p.isPrefixOf q = decide (p <+: q) := by
  by_cases h : p <+: q
  · simp [h, List.isPrefixOf_iff_prefix]
  · simp only [h, decide_eq_false_iff_not]
    exact Bool.eq_false_iff.mpr (fun hc => h (List.isPrefixOf_iff_prefix.mp hc))

theorem not_prefix_append_last {d : FPath} {a b : String} {r : FPath}
    (h : a ≠ b) : ¬ (d ++ [a]) <+: (d ++ b :: r) := by
  intro hpre
  have hpre2 : d ++ [a] <+: d ++ (b :: r) := by simpa using hpre
  have h2 : [a] <+: b :: r := (List.prefix_append_right_inj d).mp hpre2
  rcases h2 with ⟨t, ht⟩
  simp at ht
  exact h ht.1

theorem prefix_of_append_or {p q s : FPath} (h : p <+: q ++ s) :
    p <+: q ∨ q <+: p :=
  List.prefix_or_prefix_of_prefix h (q.prefix_append s)

namespace FS

theorem noSub_removeAll_self (fs : FS) (p : FPath) : (fs.removeAll p).noSub p := by
  simp only [FS.removeAll, FS.noSub, Bool.and_eq_true, List.all_eq_true, List.mem_filter]
  constructor <;> (intro x hx; simp_all)

theorem noSub_removeAll (fs : FS) {p : FPath} (q : FPath)
    (h : fs.noSub p) : (fs.removeAll q).noSub p := by
  simp only [FS.removeAll, FS.noSub, Bool.and_eq_true, List.all_eq_true, List.mem_filter] at h ⊢
  constructor <;> (intro x hx; first
    | exact h.1 x hx.1
    | exact h.2 x hx.1)

theorem noSub_removeFile (fs : FS) {p : FPath} (q : FPath)
    (h : fs.noSub p) : (fs.removeFile q).noSub p := by
  simp only [FS.removeFile, FS.noSub, Bool.and_eq_true, List.all_eq_true, List.mem_filter] at h ⊢
  exact ⟨fun x hx => h.1 x hx.1, h.2⟩

theorem noSub_removeChildren (fs : FS) {p : FPath} (q : FPath)
    (h : fs.noSub p) : (fs.removeChildren q).noSub p := by
  simp only [FS.removeChildren, FS.noSub, Bool.and_eq_true, List.all_eq_true,
    List.mem_filter] at h ⊢
  exact ⟨fun x hx => h.1 x hx.1, fun x hx => h.2 x hx.1⟩

theorem noSub_mkdir (fs : FS) {p q : FPath}
    (h : fs.noSub p) (hq : ¬ p <+: q) : (fs.mkdir q).noSub p := by
  simp only [FS.mkdir, FS.noSub, Bool.and_eq_true, List.all_eq_true] at h ⊢
  refine ⟨h.1, ?_⟩
  intro x hx
  rcases List.mem_cons.mp hx with rfl | hx
  · simp [isPrefixOf_eq_decide, hq]
  · exact h.2 x hx

theorem noSub_createFile (fs : FS) {p q : FPath} (m : FileMeta)
    (h : fs.noSub p) (hq : ¬ p <+: q) : (fs.createFile q m).noSub p := by
  simp only [FS.createFile, FS.noSub, Bool.and_eq_true, List.all_eq_true] at h ⊢
  refine ⟨?_, h.2⟩
  intro x hx
  rcases List.mem_cons.mp hx with rfl | hx
  · simp [isPrefixOf_eq_decide, hq]
  · exact h.1 x (List.mem_filter.mp hx).1

theorem not_prefix_replaceRoot {p old new q : FPath}
    (hq : ¬ p <+: q) (h1 : ¬ p <+: new) (h2 : ¬ new <+: p) :
    ¬ p <+: FS.replaceRoot old new q := by
  unfold FS.replaceRoot
  split
  · intro hc
    rcases prefix_of_append_or hc with hc1 | hc1
    · exact h1 hc1
    · exact h2 hc1
  · exact hq

theorem noSub_rename (fs : FS) {p old new : FPath}
    (h : fs.noSub p) (h1 : ¬ p <+: new) (h2 : ¬ new <+: p) :
    (fs.rename old new).noSub p := by
  simp only [FS.rename, FS.noSub, Bool.and_eq_true, List.all_eq_true, List.mem_map] at h ⊢
  constructor
  · rintro x ⟨y, hy, rfl⟩
    have hq : ¬ p <+: y.1 := by
      have := h.1 y hy
      simp [isPrefixOf_eq_decide] at this
      exact this
    simp [isPrefixOf_eq_decide]
    exact not_prefix_replaceRoot hq h1 h2
  · rintro x ⟨y, hy, rfl⟩
    have hq : ¬ p <+: y := by
      have := h.2 y hy
      simp [isPrefixOf_eq_decide] at this
      exact this
    simp [isPrefixOf_eq_decide]
    exact not_prefix_replaceRoot hq h1 h2

theorem not_prefix_replaceRoot_self {old new q : FPath}
    (h1 : ¬ old <+: new) (h2 : ¬ new <+: old) :
    ¬ old <+: FS.replaceRoot old new q := by
  unfold FS.replaceRoot
  split
  · intro hc
    rcases prefix_of_append_or hc with hc1 | hc1
    · exact h1 hc1
    · exact h2 hc1
  · next hn =>
    intro hc
    exact hn (by simpa [isPrefixOf_eq_decide] using hc)

theorem noSub_rename_self (fs : FS) {old new : FPath}
    (h1 : ¬ old <+: new) (h2 : ¬ new <+: old) :
    (fs.rename old new).noSub old := by
  simp only [FS.rename, FS.noSub, Bool.and_eq_true, List.all_eq_true, List.mem_map]
  constructor
  · rintro x ⟨y, _, rfl⟩
    simp [isPrefixOf_eq_decide]
    exact not_prefix_replaceRoot_self h1 h2
  · rintro x ⟨y, _, rfl⟩
    simp [isPrefixOf_eq_decide]
    exact not_prefix_replaceRoot_self h1 h2

theorem lookupFile_createFile_self (fs : FS) (p : FPath) (m : FileMeta) :
    (fs.createFile p m).lookupFile p = some m := by
  simp [FS.createFile, FS.lookupFile]

theorem find?_filter_ne (l : List (FPath × FileMeta)) (p q : FPath)
    (h : (q == p) = false) :
    (l.filter (fun e => !(e.1 == q))).find? (fun e => e.1 == p) =
      l.find? (fun e => e.1 == p) := by
  induction l with
  | nil => rfl
  | cons e t ih =>
    by_cases he : (e.1 == p) = true
    · have hne : (e.1 == q) = false := by
        have hep : e.1 = p := by simpa using he
        subst hep
        exact beq_eq_false_iff_ne.mpr (Ne.symm (beq_eq_false_iff_ne.mp h))
      simp [List.filter_cons, hne, List.find?_cons, he]
    · by_cases heq : (e.1 == q) = true
      · simp [List.filter_cons, heq, List.find?_cons, he, ih]
      · simp [List.filter_cons, heq, List.find?_cons, he, ih]

theorem lookupFile_createFile_ne (fs : FS) {p q : FPath} (m : FileMeta)
    (h : q ≠ p) : (fs.createFile q m).lookupFile p = fs.lookupFile p := by
  have hqp : (q == p) = false := by simpa using h
  simp only [FS.createFile, FS.lookupFile, List.find?_cons, hqp, Bool.false_eq_true,
    if_false]
  rw [find?_filter_ne _ _ _ hqp]

theorem lookupFile_mkdir (fs : FS) (p q : FPath) :
    (fs.mkdir q).lookupFile p = fs.lookupFile p := rfl

end FS

/-- Every run of `createSnapshot` produces a trace that is a prefix of
`[recordCreated, renamed, txCommitted]`: the record is created first, the
rename happens after it, and the transaction commit comes last. -/
theorem createSnapshotRaw_trace (s : Snapshotter) (o : Oracle) (w : World)
    (kind : Kind) (key parent : String) (ls : List (String × String)) :
    (s.createSnapshotRaw o w kind key parent ls).tr <+:
      [Ev.recordCreated key, Ev.renamed, Ev.txCommitted] := by
  simp only [Snapshotter.createSnapshotRaw]
  all_goals repeat first
    | exact ⟨_, rfl⟩
    | split

theorem not_prefix_under {d : FPath} {a b : String} {r : FPath}
    (h : a ≠ b) : ¬ (d ++ [a]) <+: ((d ++ [b]) ++ r) := by
  have : (d ++ [b]) ++ r = d ++ b :: r := by simp
  rw [this]
  exact not_prefix_append_last h

theorem snapshot_subpath (root : FPath) (a : String) (r : FPath) :
    root ++ ("snapshots" :: a :: r) = ((root ++ ["snapshots"]) ++ [a]) ++ r := by
  simp

theorem ensureMarkerFile_noSub (ok : Bool) (fs : FS) (q : FPath) {p : FPath}
    (h : fs.noSub p) (hq : ¬ p <+: q) :
    ((ensureMarkerFile ok fs q).2).noSub p := by
  unfold ensureMarkerFile
  split
  · exact h
  · split
    · exact FS.noSub_createFile _ _ h hq
    · exact h

theorem prepareDirectory_noSub (s : Snapshotter) (o : Oracle) (fs : FS)
    (kind : Kind) {p : FPath} (h : fs.noSub p)
    (hp : ∀ r, ¬ p <+: (s.snapshotsDir ++ [o.tempName]) ++ r) :
    ((s.prepareDirectory o fs kind).2.2).noSub p := by
  have hp0 : ¬ p <+: s.snapshotsDir ++ [o.tempName] := by
    have := hp []
    simpa using this
  simp only [Snapshotter.prepareDirectory]
  repeat' split
  all_goals try rename_i heq
  all_goals repeat first
    | exact h
    | exact hp0
    | exact hp _
    | apply FS.noSub_mkdir
    | apply FS.noSub_createFile
  all_goals try (split at heq)
  all_goals
    first
      | (have hm := ensureMarkerFile_noSub o.markerOk
            (((fs.mkdir (s.snapshotsDir ++ [o.tempName])).mkdir
                (s.snapshotsDir ++ [o.tempName] ++ ["fs"])).mkdir
              (s.snapshotsDir ++ [o.tempName] ++ ["work"]))
            (s.snapshotsDir ++ [o.tempName] ++ [erofsLayerMarker])
            (by repeat first
                  | exact h
                  | exact hp0
                  | exact hp _
                  | apply FS.noSub_mkdir) (hp _)
         rw [heq] at hm
         exact hm)
      | (have hm := ensureMarkerFile_noSub o.markerOk
            ((fs.mkdir (s.snapshotsDir ++ [o.tempName])).mkdir
                (s.snapshotsDir ++ [o.tempName] ++ ["fs"]))
            (s.snapshotsDir ++ [o.tempName] ++ [erofsLayerMarker])
            (by repeat first
                  | exact h
                  | exact hp0
                  | exact hp _
                  | apply FS.noSub_mkdir) (hp _)
         rw [heq] at hm
         exact hm)

theorem prepareDirectory_td (s : Snapshotter) (o : Oracle) (fs : FS) (kind : Kind) :
    ((s.prepareDirectory o fs kind).1 = none ∧ (s.prepareDirectory o fs kind).2.2 = fs) ∨
    (s.prepareDirectory o fs kind).1 = some (s.snapshotsDir ++ [o.tempName]) := by
  simp only [Snapshotter.prepareDirectory]
  repeat' split
  all_goals simp

theorem generateFsMeta_noSub (s : Snapshotter) (o : Oracle) (fs : FS)
    (ids : List String) {p : FPath} (h : fs.noSub p)
    (hh : ∀ id0 ∈ ids.take 1, ¬ p <+: s.fsMetaPath id0) :
    (s.generateFsMeta o fs ids).noSub p := by
  simp only [Snapshotter.generateFsMeta]
  repeat' split
  all_goals repeat first
    | exact h
    | apply FS.noSub_createFile
    | exact hh _ (by simp)

theorem createWritableLayer_noSub (s : Snapshotter) (o : Oracle) (fs : FS)
    (id : String) {p : FPath} (h : fs.noSub p)
    (hp : ¬ p <+: s.writablePath id) :
    ((s.createWritableLayer o fs id).2).noSub p := by
  simp only [Snapshotter.createWritableLayer]
  repeat' split
  all_goals repeat first
    | exact h
    | apply FS.noSub_createFile
    | apply FS.noSub_removeFile
    | exact hp

theorem mounts_noSub (s : Snapshotter) (o : Oracle) (fs : FS) (snap : Snapshot)
    (info : SnapInfo) {p : FPath} (h : fs.noSub p)
    (hp : ∀ r, ¬ p <+: s.root ++ ("snapshots" :: snap.id :: r)) :
    ((s.mounts o fs snap info).2).noSub p := by
  have hm : ∀ b, ((ensureMarkerFile b (fs.mkdir (s.upperPath snap.id))
      (s.root ++ ["snapshots", snap.id] ++ [erofsLayerMarker])).2).noSub p := by
    intro b
    apply ensureMarkerFile_noSub
    · exact FS.noSub_mkdir _ h (hp ["fs"])
    · simpa [List.append_assoc] using hp [erofsLayerMarker]
  simp only [Snapshotter.mounts, Snapshotter.diffMounts]
  repeat' split
  all_goals try exact h
  all_goals
    rename_i heq
    have := hm o.diffMarkerOk
    rw [heq] at this
    exact this

theorem Store.lookup_mem {st : Store} {k : String} {r : SnapInfo}
    (h : st.lookup k = some r) : ∃ e ∈ st.recs, e.2 = r := by
  simp only [Store.lookup] at h
  cases hfind : st.recs.find? (fun e => e.1 == k) with
  | none => rw [hfind] at h; simp at h
  | some e =>
    rw [hfind] at h
    simp at h
    exact ⟨e, List.mem_of_find?_eq_some hfind, h⟩

theorem storageCreateSnapshot_ok {st : Store} {kind : Kind} {key parent : String}
    {ls : List (String × String)} {st1 : Store} {snap : Snapshot}
    (h : storageCreateSnapshot st kind key parent ls = .ok (st1, snap)) :
    snap.id = toString st.nextID ∧
    (∀ a, freshName st a → ∀ pid ∈ snap.parentIDs, pid ≠ a) := by
  simp only [storageCreateSnapshot] at h
  by_cases hk : (st.lookup key).isSome
  · simp [hk] at h
  · by_cases hpe : (parent == "") = true
    · simp only [hk, Bool.false_eq_true, if_false, hpe, if_true, Except.ok.injEq,
        Prod.mk.injEq] at h
      obtain ⟨_, h2⟩ := h
      subst h2
      simp
    · cases hlk : st.lookup parent with
      | none =>
        simp [hk, hpe, hlk] at h
      | some prec =>
        by_cases hc : prec.kind = Kind.committed
        · simp only [hk, Bool.false_eq_true, if_false, hpe, hlk, hc, if_true,
            Except.ok.injEq, Prod.mk.injEq] at h
          obtain ⟨_, h2⟩ := h
          subst h2
          refine ⟨rfl, ?_⟩
          intro a hf pid hpid
          obtain ⟨e, hmem, he⟩ := Store.lookup_mem hlk
          simp only [List.mem_cons] at hpid
          rcases hpid with rfl | hpid
          · exact he ▸ (hf e hmem).1
          · exact (he ▸ (hf e hmem).2) pid hpid
        · simp [hk, hpe, hlk, hc] at h

theorem diverge_last {d : FPath} {a b : String} (h : a ≠ b) :
    ¬ (d ++ [a]) <+: (d ++ [b]) := by
  have := @not_prefix_under d a b [] h
  simpa using this

theorem fsMetaPath_eq (s : Snapshotter) (id : String) :
    s.fsMetaPath id = (s.snapshotsDir ++ [id]) ++ ["fsmeta.erofs"] := by
  simp [Snapshotter.fsMetaPath, Snapshotter.snapshotsDir]

theorem writablePath_eq (s : Snapshotter) (id : String) :
    s.writablePath id = (s.snapshotsDir ++ [id]) ++ ["rwlayer.img"] := by
  simp [Snapshotter.writablePath, Snapshotter.snapshotsDir]

set_option maxHeartbeats 1000000 in
theorem createSnapshotRaw_cleanup (s : Snapshotter) (o : Oracle) (w : World)
    (kind : Kind) (key parent : String) (ls : List (String × String))
    (h1 : w.fs.noSub (s.snapshotsDir ++ [o.tempName]))
    (h2 : w.fs.noSub (s.snapshotsDir ++ [toString w.store.nextID]))
    (hne : o.tempName ≠ toString w.store.nextID)
    (hf1 : freshName w.store o.tempName) :
    (s.createSnapshotRaw o w kind key parent ls).res.isOk = true ∨
    ((((s.createSnapshotRaw o w kind key parent ls).deferFS).noSub
        (s.snapshotsDir ++ [o.tempName]) ∧
      ((s.createSnapshotRaw o w kind key parent ls).deferFS).noSub
        (s.snapshotsDir ++ [toString w.store.nextID])) ∧
     (Ev.txCommitted ∉ (s.createSnapshotRaw o w kind key parent ls).tr →
       (s.createSnapshotRaw o w kind key parent ls).w.store = w.store)) := by
  have hpId : ∀ rr, ¬ (s.snapshotsDir ++ [toString w.store.nextID]) <+:
      (s.snapshotsDir ++ [o.tempName]) ++ rr :=
    fun rr => @not_prefix_under s.snapshotsDir (toString w.store.nextID) o.tempName rr
      (Ne.symm hne)
  rcases hpd : s.prepareDirectory o w.fs kind with ⟨td?, res0, fs0⟩
  have hpds := prepareDirectory_td s o w.fs kind
  rw [hpd] at hpds
  have hfs0p : ∀ {p : FPath}, w.fs.noSub p →
      (∀ rr, ¬ p <+: (s.snapshotsDir ++ [o.tempName]) ++ rr) → fs0.noSub p := by
    intro p hp hrr
    have := prepareDirectory_noSub s o w.fs kind hp hrr
    rw [hpd] at this
    exact this
  simp only [Snapshotter.createSnapshotRaw, hpd]
  rcases res0 with e0 | u0
  · -- prepareDirectory failed
    rcases td? with _ | td
    · obtain ⟨-, hfs⟩ | hsome := hpds
      · right
        subst hfs
        exact ⟨⟨h1, h2⟩, fun _ => by trivial⟩
      · exact absurd hsome (by simp)
    · obtain ⟨hnone, -⟩ | hsome := hpds
      · exact absurd hnone (by simp)
      · right
        have htd : td = s.snapshotsDir ++ [o.tempName] := by
          simpa using hsome
        subst htd
        refine ⟨⟨FS.noSub_removeAll_self _ _, ?_⟩, fun _ => by trivial⟩
        exact FS.noSub_removeAll _ _ (hfs0p h2 hpId)
  · -- prepareDirectory succeeded
    rcases td? with _ | td
    · right
      obtain ⟨-, hfs⟩ | hsome := hpds
      · subst hfs
        exact ⟨⟨h1, h2⟩, fun _ => by trivial⟩
      · exact absurd hsome (by simp)
    · have htd : td = s.snapshotsDir ++ [o.tempName] := by
        rcases hpds with ⟨hnone, -⟩ | hsome
        · exact absurd hnone (by simp)
        · simpa using hsome
      subst htd
      have hfs0Td : ∀ rr, fs0.noSub ((s.snapshotsDir ++ [o.tempName]) ++ rr) → True :=
        fun _ _ => trivial
      rcases hsc : storageCreateSnapshot w.store kind key parent
          (if isExtractKey key = true then labelSet ls extractLabel "true" else ls)
        with e1 | ⟨st1, snap⟩
      · right
        refine ⟨⟨FS.noSub_removeAll_self _ _, ?_⟩, fun _ => by trivial⟩
        exact FS.noSub_removeAll _ _ (hfs0p h2 hpId)
      · obtain ⟨hid, hfr⟩ := storageCreateSnapshot_ok hsc
        simp only []
        rcases hgi : storageGetInfo st1 key with e2 | info
        · right
          refine ⟨⟨FS.noSub_removeAll_self _ _, ?_⟩, fun _ => by trivial⟩
          exact FS.noSub_removeAll _ _ (hfs0p h2 hpId)
        · simp only []
          rcases hch : (if 0 < snap.parentIDs.length then
              upperDirectoryPermission o fs0 (s.upperPath (snap.parentIDs.getD 0 ""))
            else Except.ok ()) with e3 | u3
          · right
            refine ⟨⟨FS.noSub_removeAll_self _ _, ?_⟩, fun _ => by trivial⟩
            exact FS.noSub_removeAll _ _ (hfs0p h2 hpId)
          · simp only []
            by_cases hrn : (!o.renameOk) = true
            · simp only [hrn, if_true]
              right
              refine ⟨⟨?_, ?_⟩, fun _ => by trivial⟩
              · exact FS.noSub_removeAll _ _ (FS.noSub_removeAll_self _ _)
              · exact FS.noSub_removeAll _ _
                  (FS.noSub_removeAll _ _ (hfs0p h2 hpId))
            · simp only [hrn, Bool.false_eq_true, if_false, hid]
              have hren1 : (fs0.rename (s.snapshotsDir ++ [o.tempName])
                  (s.snapshotsDir ++ [toString w.store.nextID])).noSub
                  (s.snapshotsDir ++ [o.tempName]) :=
                FS.noSub_rename_self _ (diverge_last hne) (diverge_last (Ne.symm hne))
              by_cases htx : (!o.txCommitOk) = true
              · simp only [htx, if_true]
                right
                refine ⟨⟨?_, FS.noSub_removeAll_self _ _⟩, fun _ => by trivial⟩
                exact FS.noSub_removeAll _ _ hren1
              · simp only [htx, Bool.false_eq_true, if_false]
                have hfs2Td : ((if !isExtractKey key then
                    s.generateFsMeta o (fs0.rename (s.snapshotsDir ++ [o.tempName])
                      (s.snapshotsDir ++ [toString w.store.nextID])) snap.parentIDs
                  else (fs0.rename (s.snapshotsDir ++ [o.tempName])
                    (s.snapshotsDir ++ [toString w.store.nextID])))).noSub
                    (s.snapshotsDir ++ [o.tempName]) := by
                  split
                  · apply generateFsMeta_noSub _ _ _ _ hren1
                    intro id0 hmem
                    have hpid : id0 ≠ o.tempName :=
                      hfr o.tempName hf1 id0 (List.take_subset 1 _ hmem)
                    rw [fsMetaPath_eq]
                    exact @not_prefix_under s.snapshotsDir o.tempName id0 _
                      (Ne.symm hpid)
                  · exact hren1
                rcases hcw : (if kind = Kind.active ∧ s.blockMode = true ∧
                      (!isExtractKey key) = true then
                    s.createWritableLayer o
                      (if !isExtractKey key then
                        s.generateFsMeta o (fs0.rename (s.snapshotsDir ++ [o.tempName])
                          (s.snapshotsDir ++ [toString w.store.nextID])) snap.parentIDs
                      else (fs0.rename (s.snapshotsDir ++ [o.tempName])
                        (s.snapshotsDir ++ [toString w.store.nextID])))
                      (toString w.store.nextID)
                  else (Except.ok (),
                    (if !isExtractKey key then
                      s.generateFsMeta o (fs0.rename (s.snapshotsDir ++ [o.tempName])
                        (s.snapshotsDir ++ [toString w.store.nextID])) snap.parentIDs
                    else (fs0.rename (s.snapshotsDir ++ [o.tempName])
                      (s.snapshotsDir ++ [toString w.store.nextID])))))
                  with ⟨res3, fs3⟩
                have hfs3Td : fs3.noSub (s.snapshotsDir ++ [o.tempName]) := by
                  have hall : ((if kind = Kind.active ∧ s.blockMode = true ∧
                        (!isExtractKey key) = true then
                      s.createWritableLayer o
                        (if !isExtractKey key then
                          s.generateFsMeta o (fs0.rename (s.snapshotsDir ++ [o.tempName])
                            (s.snapshotsDir ++ [toString w.store.nextID])) snap.parentIDs
                        else (fs0.rename (s.snapshotsDir ++ [o.tempName])
                          (s.snapshotsDir ++ [toString w.store.nextID])))
                        (toString w.store.nextID)
                    else (Except.ok (),
                      (if !isExtractKey key then
                        s.generateFsMeta o (fs0.rename (s.snapshotsDir ++ [o.tempName])
                          (s.snapshotsDir ++ [toString w.store.nextID])) snap.parentIDs
                      else (fs0.rename (s.snapshotsDir ++ [o.tempName])
                        (s.snapshotsDir ++ [toString w.store.nextID]))))).2).noSub
                      (s.snapshotsDir ++ [o.tempName]) := by
                    split
                    · apply createWritableLayer_noSub _ _ _ _ hfs2Td
                      rw [writablePath_eq]
                      exact @not_prefix_under s.snapshotsDir o.tempName
                        (toString w.store.nextID) _ hne
                    · exact hfs2Td
                  rw [hcw] at hall
                  exact hall
                rcases res3 with e4 | u4
                · right
                  refine ⟨⟨?_, FS.noSub_removeAll_self _ _⟩, ?_⟩
                  · exact FS.noSub_removeAll _ _ hfs3Td
                  · intro hmem
                    exact absurd (by simp) hmem
                · rcases hmt : s.mounts o fs3 snap info with ⟨res4, fs4⟩
                  have hfs4Td : fs4.noSub (s.snapshotsDir ++ [o.tempName]) := by
                    have hall := mounts_noSub s o fs3 snap info hfs3Td ?hp
                    case hp =>
                      intro rr
                      rw [snapshot_subpath]
                      refine @not_prefix_under s.snapshotsDir o.tempName snap.id rr ?_
                      rw [hid]
                      exact hne
                    rw [hmt] at hall
                    exact hall
                  simp only [hmt]
                  rcases res4 with e5 | ms
                  · right
                    refine ⟨⟨?_, FS.noSub_removeAll_self _ _⟩, ?_⟩
                    · exact FS.noSub_removeAll _ _ hfs4Td
                    · intro hmem
                      exact absurd (by simp) hmem
                  · left
                    rfl

/-- **C1** (corrected).  On the run below, `Prepare` fails after the
metadata transaction has committed (block mode, `mkfs.ext4` fails): the
snapshot directories are removed but the metadata entry for the key is
still in the store, contradicting the claim that a failed `Prepare` leaves
no entry in the metadata store. -/
theorem c1_counterexample :
    (sBlk.Prepare oMkfsFail w0 "k" "" []).1 =
        .error (.sys "failed to format ext4") ∧
    ((sBlk.Prepare oMkfsFail w0 "k" "" []).2.1.store.lookup "k").isSome = true ∧
    (sBlk.Prepare oMkfsFail w0 "k" "" []).2.1.fs.noSub
        (sBlk.snapshotsDir ++ ["1"]) = true := by
  refine ⟨by decide, by decide, by decide⟩

/-- **C1** (amended).  When `Prepare`/`View` returns an error, no snapshot
directory (temporary or final) remains on disk, and if the write
transaction had not committed, no entry for the key is in the metadata
store; a failure after the transaction commit (writable-layer creation or
mount planning) removes the directories but leaves the committed record in
place. -/
theorem c1_prepare_error_cleanup (s : Snapshotter) (o : Oracle) (w : World)
    (kind : Kind) (key parent : String) (ls : List (String × String))
    (e : GoErr) (w' : World) (tr : List Ev)
    (h1 : w.fs.noSub (s.snapshotsDir ++ [o.tempName]))
    (h2 : w.fs.noSub (s.snapshotsDir ++ [toString w.store.nextID]))
    (hne : o.tempName ≠ toString w.store.nextID)
    (hf1 : freshName w.store o.tempName)
    (hrun : s.createSnapshot o w kind key parent ls = (.error e, w', tr)) :
    (w'.fs.noSub (s.snapshotsDir ++ [o.tempName]) ∧
     w'.fs.noSub (s.snapshotsDir ++ [toString w.store.nextID])) ∧
    (Ev.txCommitted ∉ tr → w'.store = w.store) := by
  have hspec := createSnapshotRaw_cleanup s o w kind key parent ls h1 h2 hne hf1
  simp only [Snapshotter.createSnapshot] at hrun
  rcases hres : (s.createSnapshotRaw o w kind key parent ls).res with e1 | ms
  · rw [hres] at hrun
    injection hrun with h1 h23
    injection h23 with hw ht
    rcases hspec with hok | ⟨⟨hn1, hn2⟩, hst⟩
    · rw [hres] at hok
      simp [Except.isOk, Except.toBool] at hok
    · subst hw
      subst ht
      exact ⟨⟨hn1, hn2⟩, hst⟩
  · rw [hres] at hrun
    injection hrun with h1 h23
    exact Except.noConfusion h1

theorem c1_prepare_error_cleanup_witness :
    (w0.fs.noSub (sBlk.snapshotsDir ++ [oMkfsFail.tempName]) = true ∧
     w0.fs.noSub (sBlk.snapshotsDir ++ [toString w0.store.nextID]) = true ∧
     oMkfsFail.tempName ≠ toString w0.store.nextID ∧
     freshName w0.store oMkfsFail.tempName) ∧
    (((sBlk.createSnapshot oMkfsFail w0 Kind.active "k" "" []).2.1.fs.noSub
        (sBlk.snapshotsDir ++ [oMkfsFail.tempName]) ∧
      (sBlk.createSnapshot oMkfsFail w0 Kind.active "k" "" []).2.1.fs.noSub
        (sBlk.snapshotsDir ++ [toString w0.store.nextID])) ∧
     (Ev.txCommitted ∉ (sBlk.createSnapshot oMkfsFail w0 Kind.active "k" "" []).2.2 →
       (sBlk.createSnapshot oMkfsFail w0 Kind.active "k" "" []).2.1.store = w0.store)) :=
  ⟨⟨by decide, by decide, by decide, by decide⟩,
   c1_prepare_error_cleanup sBlk oMkfsFail w0 Kind.active "k" "" []
     (GoErr.sys "failed to format ext4")
     ((sBlk.createSnapshot oMkfsFail w0 Kind.active "k" "" []).2.1)
     ((sBlk.createSnapshot oMkfsFail w0 Kind.active "k" "" []).2.2)
     (by decide) (by decide) (by decide) (by decide) (by decide)⟩

theorem FS.lookupFile_removeFile_self (fs : FS) (p : FPath) :
    (fs.removeFile p).lookupFile p = none := by
  simp only [FS.removeFile, FS.lookupFile]
  rw [List.find?_eq_none.mpr]
  · rfl
  · intro x hx
    simp only [List.mem_filter] at hx
    simpa using hx.2

theorem ensureMarkerFile_lookupFile (ok : Bool) (fs : FS) (q p : FPath)
    (hq : q ≠ p) : ((ensureMarkerFile ok fs q).2).lookupFile p = fs.lookupFile p := by
  unfold ensureMarkerFile
  split
  · rfl
  · split
    · exact FS.lookupFile_createFile_ne _ _ hq
    · rfl

theorem mounts_lookupFile (s : Snapshotter) (o : Oracle) (fs : FS)
    (snap : Snapshot) (info : SnapInfo) (p : FPath)
    (hq : s.root ++ ["snapshots", snap.id] ++ [erofsLayerMarker] ≠ p) :
    ((s.mounts o fs snap info).2).lookupFile p = fs.lookupFile p := by
  simp only [Snapshotter.mounts, Snapshotter.diffMounts]
  repeat' split
  all_goals try rfl
  all_goals
    rename_i heq
    have hm := ensureMarkerFile_lookupFile o.diffMarkerOk (fs.mkdir (s.upperPath snap.id))
      (s.root ++ ["snapshots", snap.id] ++ [erofsLayerMarker]) p hq
    rw [heq] at hm
    exact hm

theorem Store.lookup_cons_self (recs : List (String × SnapInfo)) (n : Nat)
    (key : String) (r : SnapInfo) :
    Store.lookup ⟨(key, r) :: recs, n⟩ key = some r := by
  simp [Store.lookup, List.find?_cons]

theorem storageCreateSnapshot_lookup {st : Store} {kind : Kind} {key parent : String}
    {ls : List (String × String)} {st1 : Store} {snap : Snapshot}
    (h : storageCreateSnapshot st kind key parent ls = .ok (st1, snap)) :
    st1.lookup key = some ⟨snap.id, kind, parent, snap.parentIDs, ls⟩ := by
  simp only [storageCreateSnapshot] at h
  by_cases hk : (st.lookup key).isSome
  · simp [hk] at h
  · by_cases hpe : (parent == "") = true
    · simp only [hk, Bool.false_eq_true, if_false, hpe, if_true, Except.ok.injEq,
        Prod.mk.injEq] at h
      obtain ⟨h1, h2⟩ := h
      subst h1
      subst h2
      exact Store.lookup_cons_self _ _ _ _
    · cases hlk : st.lookup parent with
      | none => simp [hk, hpe, hlk] at h
      | some prec =>
        by_cases hc : prec.kind = Kind.committed
        · simp only [hk, Bool.false_eq_true, if_false, hpe, hlk, hc, if_true,
            Except.ok.injEq, Prod.mk.injEq] at h
          obtain ⟨h1, h2⟩ := h
          subst h1
          subst h2
          exact Store.lookup_cons_self _ _ _ _
        · simp [hk, hpe, hlk, hc] at h

theorem snapshots_file_ne {root : FPath} {i a b : String} (h : a ≠ b) :
    root ++ ["snapshots", i] ++ [a] ≠ root ++ ["snapshots", i, b] := by
  intro hc
  apply h
  have hc2 : root ++ ["snapshots", i, a] = root ++ ["snapshots", i, b] := by
    simpa [List.append_assoc] using hc
  have := List.append_cancel_left hc2
  simpa using this

theorem createWritableLayer_ok (s : Snapshotter) (o : Oracle) (fs : FS)
    (id : String) (hok : ((s.createWritableLayer o fs id).1).isOk = true) :
    ((s.createWritableLayer o fs id).2).lookupFile (s.writablePath id) =
      some ⟨s.defaultWritable, false, false, some (mkfsExt4Args (s.writablePath id))⟩ := by
  simp only [Snapshotter.createWritableLayer] at hok ⊢
  repeat' split at hok
  all_goals try simp [Except.isOk, Except.toBool] at hok
  repeat' split
  all_goals first
    | exact FS.lookupFile_createFile_self _ _ _
    | simp_all [Except.isOk, Except.toBool]

set_option maxHeartbeats 1000000 in
theorem createSnapshotRaw_writable (s : Snapshotter) (o : Oracle) (w : World)
    (key parent : String) (ls : List (String × String))
    (hb : s.blockMode = true) (hx : isExtractKey key = false) :
    ∀ ms, (s.createSnapshotRaw o w Kind.active key parent ls).res = .ok ms →
      ∃ r, (s.createSnapshotRaw o w Kind.active key parent ls).w.store.lookup key =
            some r ∧
        (s.createSnapshotRaw o w Kind.active key parent ls).w.fs.lookupFile
            (s.writablePath r.id) =
          some ⟨s.defaultWritable, false, false,
            some (mkfsExt4Args (s.writablePath r.id))⟩ := by
  rcases hpd : s.prepareDirectory o w.fs Kind.active with ⟨td?, res0, fs0⟩
  simp only [Snapshotter.createSnapshotRaw, hpd]
  rcases res0 with e0 | u0
  · intro ms h
    rcases td? with _ | td <;> exact Except.noConfusion h
  · rcases td? with _ | td
    · intro ms h
      exact Except.noConfusion h
    · rcases hsc : storageCreateSnapshot w.store Kind.active key parent
          (if isExtractKey key = true then labelSet ls extractLabel "true" else ls)
        with e1 | ⟨st1, snap⟩
      · intro ms h
        exact Except.noConfusion h
      · simp only []
        rcases hgi : storageGetInfo st1 key with e2 | info
        · intro ms h
          exact Except.noConfusion h
        · simp only []
          rcases hch : (if 0 < snap.parentIDs.length then
              upperDirectoryPermission o fs0 (s.upperPath (snap.parentIDs.getD 0 ""))
            else Except.ok ()) with e3 | u3
          · intro ms h
            exact Except.noConfusion h
          · simp only []
            by_cases hrn : (!o.renameOk) = true
            · simp only [hrn, if_true]
              intro ms h
              exact Except.noConfusion h
            · simp only [hrn, Bool.false_eq_true, if_false]
              by_cases htx : (!o.txCommitOk) = true
              · simp only [htx, if_true]
                intro ms h
                exact Except.noConfusion h
              · simp only [htx, Bool.false_eq_true, if_false, hx, hb, Bool.not_false,
                  eq_self_iff_true, true_and, and_self, and_true, if_true, ite_true]
                rcases hcw : s.createWritableLayer o
                    (s.generateFsMeta o
                      (fs0.rename td (s.snapshotsDir ++ [snap.id])) snap.parentIDs)
                    snap.id with ⟨res3, fs3⟩
                rcases res3 with e4 | u4
                · intro ms h
                  exact Except.noConfusion h
                · simp only []
                  have hfile : fs3.lookupFile (s.writablePath snap.id) =
                      some ⟨s.defaultWritable, false, false,
                        some (mkfsExt4Args (s.writablePath snap.id))⟩ := by
                    have := createWritableLayer_ok s o
                      (s.generateFsMeta o
                        (fs0.rename td (s.snapshotsDir ++ [snap.id])) snap.parentIDs)
                      snap.id (by rw [hcw]; rfl)
                    rw [hcw] at this
                    exact this
                  rcases hmt : s.mounts o fs3 snap info with ⟨res4, fs4⟩
                  rcases res4 with e5 | ms0
                  · intro ms h
                    exact Except.noConfusion h
                  · intro ms h
                    refine ⟨⟨snap.id, Kind.active, parent, snap.parentIDs,
                      (if isExtractKey key = true then labelSet ls extractLabel "true"
                       else ls)⟩, ?_, ?_⟩
                    · exact storageCreateSnapshot_lookup hsc
                    · have hml := mounts_lookupFile s o fs3 snap info
                        (s.writablePath snap.id)
                        (snapshots_file_ne (by decide))
                      rw [hmt] at hml
                      rw [hml]
                      exact hfile

/-- **C7** (corrected).  On the run below, a block-mode `Prepare` of an
extract snapshot succeeds without ever creating `rwlayer.img`, so the claim
that *every* block-mode Active `Prepare` eagerly creates the writable layer
fails; the eager creation is skipped for extract keys. -/
theorem c7_counterexample :
    (sBlk.Prepare oDef w0 "default/7/extract-99" "" []).1 =
        .ok [⟨pathStr (sBlk.upperPath "1"), "bind", ["rw", "rbind"]⟩] ∧
    (sBlk.Prepare oDef w0 "default/7/extract-99" "" []).2.1.fs.lookupFile
        (sBlk.writablePath "1") = none := by
  exact ⟨by decide, by decide⟩

/-- **C7** (amended).  For every *non-extract* Active `Prepare` in block
mode that succeeds, `rwlayer.img` exists as a file of the configured size
formatted by `mkfs.ext4` with
`-E nodiscard,lazy_itable_init=1,lazy_journal_init=1`; and whenever
`createWritableLayer` fails after the file was created (truncate or mkfs
failure), the file is removed. -/
theorem c7_writable_layer_eager (s : Snapshotter) (o : Oracle) (w : World)
    (key parent : String) (ls : List (String × String))
    (ms : List Mount) (w' : World) (tr : List Ev)
    (hb : s.blockMode = true) (hx : isExtractKey key = false)
    (hrun : s.Prepare o w key parent ls = (.ok ms, w', tr)) :
    (∃ r, w'.store.lookup key = some r ∧
       w'.fs.lookupFile (s.writablePath r.id) =
         some ⟨s.defaultWritable, false, false,
           some (mkfsExt4Args (s.writablePath r.id))⟩) ∧
    (∀ (o2 : Oracle) (fs : FS) (id : String) (e : GoErr), o2.createOk = true →
      (s.createWritableLayer o2 fs id).1 = .error e →
      ((s.createWritableLayer o2 fs id).2).lookupFile (s.writablePath id) = none) := by
  constructor
  · simp only [Snapshotter.Prepare, Snapshotter.createSnapshot] at hrun
    rcases hres : (s.createSnapshotRaw o w Kind.active key parent ls).res with e1 | ms1
    · rw [hres] at hrun
      injection hrun with h1 h23
      exact Except.noConfusion h1
    · rw [hres] at hrun
      injection hrun with h1 h23
      injection h23 with hw ht
      obtain ⟨r, hr1, hr2⟩ := createSnapshotRaw_writable s o w key parent ls hb hx ms1 hres
      subst hw
      exact ⟨r, hr1, hr2⟩
  · intro o2 fs id e hco herr
    simp only [Snapshotter.createWritableLayer] at herr ⊢
    simp only [hco, Bool.not_true, Bool.false_eq_true, if_false]
    split
    · exact FS.lookupFile_removeFile_self _ _
    · split
      · exact FS.lookupFile_removeFile_self _ _
      · simp only [hco, Bool.not_true, Bool.false_eq_true, if_false] at herr
        split at herr <;> simp_all

theorem c7_writable_layer_eager_witness :
    (sBlk.blockMode = true ∧ isExtractKey "k" = false ∧
     (sBlk.Prepare oDef w0 "k" "" []).1.isOk = true) ∧
    ((∃ r, (sBlk.Prepare oDef w0 "k" "" []).2.1.store.lookup "k" = some r ∧
        (sBlk.Prepare oDef w0 "k" "" []).2.1.fs.lookupFile (sBlk.writablePath r.id) =
          some ⟨sBlk.defaultWritable, false, false,
            some (mkfsExt4Args (sBlk.writablePath r.id))⟩) ∧
     (∀ (o2 : Oracle) (fs : FS) (id : String) (e : GoErr), o2.createOk = true →
       (sBlk.createWritableLayer o2 fs id).1 = .error e →
       ((sBlk.createWritableLayer o2 fs id).2).lookupFile (sBlk.writablePath id) = none)) :=
  ⟨⟨by decide, by decide, by decide⟩,
   c7_writable_layer_eager sBlk oDef w0 "k" "" []
     ((sBlk.Prepare oDef w0 "k" "" []).1.toOption.getD [])
     ((sBlk.Prepare oDef w0 "k" "" []).2.1)
     ((sBlk.Prepare oDef w0 "k" "" []).2.2)
     (by decide) (by decide) (by decide)⟩

theorem createSnapshot_tr_eq (s : Snapshotter) (o : Oracle) (w : World)
    (kind : Kind) (key parent : String) (ls : List (String × String)) :
    (s.createSnapshot o w kind key parent ls).2.2 =
      (s.createSnapshotRaw o w kind key parent ls).tr := by
  simp only [Snapshotter.createSnapshot]
  split <;> rfl

/-- **C2** (corrected).  The claim reads "the rename happens only after the
transaction commits"; in the code the rename is executed *inside* the write
transaction, before the commit, so on the successful run below the trace
records the rename strictly before the transaction commit and the claim
fails. -/
theorem c2_counterexample :
    (sDir.Prepare oDef w0 "k" "" []).2.2 =
        [Ev.recordCreated "k", Ev.renamed, Ev.txCommitted] ∧
    (sDir.Prepare oDef w0 "k" "" []).1 =
        .ok [⟨pathStr (sDir.upperPath "1"), "bind", ["rw", "rbind"]⟩] ∧
    ¬ renameOnlyAfterCommit (sDir.Prepare oDef w0 "k" "" []).2.2 := by
  have htr : (sDir.Prepare oDef w0 "k" "" []).2.2 =
      [Ev.recordCreated "k", Ev.renamed, Ev.txCommitted] := by decide
  refine ⟨htr, by decide, ?_⟩
  rw [htr]
  intro h
  obtain ⟨j, hjlt, hje⟩ := h ⟨1, by decide⟩ rfl
  rcases j with ⟨jv, hjv⟩
  have h1 : jv < 1 := hjlt
  have hj0 : jv = 0 := by omega
  subst hj0
  have : [Ev.recordCreated "k", Ev.renamed, Ev.txCommitted].get ⟨0, hjv⟩ =
      Ev.recordCreated "k" := rfl
  rw [this] at hje
  exact absurd hje (by decide)

/-- **C2** (amended).  During `Prepare` and `View` the staging directory is
renamed to its final path inside the write transaction: every run's event
trace is a prefix of `[recordCreated, renamed, txCommitted]`, so the rename
happens after the metadata record is created but before (never after) the
transaction commits. -/
theorem c2_rename_inside_transaction (s : Snapshotter) (o : Oracle) (w : World)
    (kind : Kind) (key parent : String) (ls : List (String × String)) :
    (s.createSnapshot o w kind key parent ls).2.2 <+:
      [Ev.recordCreated key, Ev.renamed, Ev.txCommitted] := by
  rw [createSnapshot_tr_eq]
  exact createSnapshotRaw_trace s o w kind key parent ls

theorem map_range_getD {α β : Type} (l : List α) (d : α) (g : α → β) :
    (List.range l.length).map (fun i => g (l.getD i d)) = l.map g := by
  induction l with
  | nil => rfl
  | cons a t ih =>
    rw [List.length_cons, List.range_succ_eq_map, List.map_cons, List.map_map]
    refine congrArg₂ _ rfl ?_
    rw [← ih]
    apply List.map_congr_left
    intro i _
    rfl

theorem mountFsMeta_fold (s : Snapshotter) (fs : FS) (snap : Snapshot)
    (idxs : List Nat)
    (h : ∀ j ∈ idxs, ∃ bm, fs.lookupFile
        (s.layerBlobPath (snap.parentIDs.getD j "")) = some bm ∧ bm.size ≠ 0) :
    ∀ acc, idxs.foldl
      (fun acc j =>
        match acc with
        | none => none
        | some opts =>
          let blob := s.layerBlobPath (snap.parentIDs.getD j "")
          match fs.lookupFile blob with
          | none => none
          | some bi =>
            if bi.size = 0 then none
            else some (opts ++ ["device=" ++ pathStr blob]))
      (some acc) =
      some (acc ++ idxs.map
        (fun j => "device=" ++ pathStr (s.layerBlobPath (snap.parentIDs.getD j "")))) := by
  induction idxs with
  | nil => intro acc; simp
  | cons j rest ih =>
    intro acc
    obtain ⟨bm, hbm, hsz⟩ := h j (List.mem_cons_self j rest)
    simp only [List.foldl_cons, hbm, hsz, if_false]
    have := ih (fun j2 hj2 => h j2 (List.mem_cons_of_mem j hj2))
      (acc ++ ["device=" ++ pathStr (s.layerBlobPath (snap.parentIDs.getD j ""))])
    rw [this]
    simp

theorem mountFsMeta_devices (s : Snapshotter) (fs : FS) (snap : Snapshot)
    (hb : s.blockMode = false) (fm : FileMeta)
    (hfs : fs.lookupFile (s.fsMetaPath (snap.parentIDs.getD 0 "")) = some fm)
    (hsz : fm.size ≠ 0)
    (hblobs : ∀ pid ∈ snap.parentIDs, ∃ bm,
      fs.lookupFile (s.layerBlobPath pid) = some bm ∧ bm.size ≠ 0) :
    s.mountFsMeta fs snap 0 =
      some ⟨pathStr (s.fsMetaPath (snap.parentIDs.getD 0 "")), "erofs",
        ["ro", "loop"] ++ (snap.parentIDs.reverse.map
          (fun pid => "device=" ++ pathStr (s.layerBlobPath pid)))⟩ := by
  have hidx : ((List.range snap.parentIDs.length).filter
      (fun j => decide (0 ≤ j))).reverse = (List.range snap.parentIDs.length).reverse := by
    congr 1
    apply List.filter_eq_self.mpr
    intro a _
    simp
  simp only [Snapshotter.mountFsMeta, hb, Bool.false_eq_true, if_false, hfs, hsz,
    if_false, hidx]
  have hmem : ∀ j ∈ (List.range snap.parentIDs.length).reverse, ∃ bm,
      fs.lookupFile (s.layerBlobPath (snap.parentIDs.getD j "")) = some bm ∧
        bm.size ≠ 0 := by
    intro j hj
    simp only [List.mem_reverse, List.mem_range] at hj
    rw [List.getD_eq_getElem snap.parentIDs "" hj]
    exact hblobs _ (List.getElem_mem hj)
  rw [mountFsMeta_fold s fs snap _ hmem ["ro", "loop"]]
  have hmm : List.map
      (fun j => "device=" ++ pathStr (s.layerBlobPath (snap.parentIDs.getD j "")))
      (List.range snap.parentIDs.length).reverse =
      List.map (fun pid => "device=" ++ pathStr (s.layerBlobPath pid))
        snap.parentIDs.reverse := by
    rw [List.map_reverse, List.map_reverse]
    exact congrArg List.reverse (map_range_getD snap.parentIDs ""
      (fun pid => "device=" ++ pathStr (s.layerBlobPath pid)))
  rw [hmm]

theorem lowerLoop_fsmeta (s : Snapshotter) (fs : FS) (snap : Snapshot)
    (m : Mount) (hth : 0 < s.fsMergeThreshold)
    (hm : s.mountFsMeta fs snap 0 = some m) (rest : List Nat) (acc : List Mount)
    (first : Nat) :
    s.lowerLoop fs snap (0 :: rest) acc first = .ok (acc ++ [m], acc.length) := by
  simp only [Snapshotter.lowerLoop, if_pos hth, hm]

/-- C4 counterexample: with threshold 1, parents `["p1", "p2"]` (newest
first) and a non-empty fsmeta at `p1`, the dir-mode planner emits the single
fsmeta mount but its `device=` options run from the oldest layer `p2` to the
newest `p1`, not newest-to-oldest; and in block mode `mountFsMeta` returns
no mount at all. -/
theorem c4_counterexample :
    sFsm.templateMounts fsFsm snapV =
      .ok [⟨"/snapshots/p1/fsmeta.erofs", "erofs",
        ["ro", "loop", "device=/snapshots/p2/layer.erofs",
         "device=/snapshots/p1/layer.erofs"]⟩] ∧
    sFsm.templateMounts fsFsm snapV ≠
      .ok [⟨"/snapshots/p1/fsmeta.erofs", "erofs",
        ["ro", "loop", "device=/snapshots/p1/layer.erofs",
         "device=/snapshots/p2/layer.erofs"]⟩] ∧
    sFsmBlk.mountFsMeta fsFsm snapV 0 = none := by
  refine ⟨by decide, by decide, by decide⟩

/-- C4 (corrected): in directory mode only (block mode never takes the
fsmeta path), for a view snapshot whose parent chain has at least two
layers, when the merge threshold is positive, a non-zero-size
`fsmeta.erofs` exists at the immediate parent and every referenced layer
blob exists with non-zero size, `templateMounts` emits a single
`erofs ro,loop` mount on the fsmeta file whose `device=<blob>` options list
the layers from OLDEST to NEWEST (the reverse of the claimed order). -/
theorem c4_fsmeta_mount_plan (s : Snapshotter) (fs : FS) (snap : Snapshot)
    (fm : FileMeta)
    (hb : s.blockMode = false) (hth : 0 < s.fsMergeThreshold)
    (hk : snap.kind = Kind.view) (hn : 2 ≤ snap.parentIDs.length)
    (hfs : fs.lookupFile (s.fsMetaPath (snap.parentIDs.getD 0 "")) = some fm)
    (hsz : fm.size ≠ 0)
    (hblobs : ∀ pid ∈ snap.parentIDs, ∃ bm,
      fs.lookupFile (s.layerBlobPath pid) = some bm ∧ bm.size ≠ 0) :
    s.templateMounts fs snap =
      .ok [⟨pathStr (s.fsMetaPath (snap.parentIDs.getD 0 "")), "erofs",
        ["ro", "loop"] ++ snap.parentIDs.reverse.map
          (fun pid => "device=" ++ pathStr (s.layerBlobPath pid))⟩] := by
  have hm := mountFsMeta_devices s fs snap hb fm hfs hsz hblobs
  have hne : ¬ (snap.parentIDs.length = 0) := by omega
  have hne1 : ¬ (snap.parentIDs.length = 1) := by omega
  have hka : ¬ (snap.kind = Kind.active) := by
    rw [hk]; intro h; exact Kind.noConfusion h
  obtain ⟨kk, hkk⟩ : ∃ kk, snap.parentIDs.length = kk + 1 :=
    ⟨snap.parentIDs.length - 1, by omega⟩
  have hrange : List.range snap.parentIDs.length =
      0 :: (List.range kk).map Nat.succ := by
    rw [hkk, List.range_succ_eq_map]
  simp only [Snapshotter.templateMounts, if_neg hne, if_neg hka, if_neg hne1]
  rw [hrange, lowerLoop_fsmeta s fs snap _ hth hm]
  simp [hk]

theorem c4_fsmeta_mount_plan_witness :
    sFsm.templateMounts fsFsm snapV =
      .ok [⟨pathStr (sFsm.fsMetaPath (snapV.parentIDs.getD 0 "")), "erofs",
        ["ro", "loop"] ++ snapV.parentIDs.reverse.map
          (fun pid => "device=" ++ pathStr (sFsm.layerBlobPath pid))⟩] :=
  c4_fsmeta_mount_plan sFsm fsFsm snapV {size := 1} rfl (by decide) rfl
    (by decide) rfl (by decide)
    (by
      intro pid hpid
      fin_cases hpid
      · exact ⟨{size := 1}, rfl, by decide⟩
      · exact ⟨{size := 1}, rfl, by decide⟩)

/-- C5 counterexample: in directory mode an Active snapshot carrying the
extract label still receives the ordinary erofs+overlay template stack, not
a single rw bind mount to the upper directory. -/
theorem c5_counterexample :
    (sDir.mounts oDef fsPlain snapA1 infoExtract).1 =
      .ok [⟨"/snapshots/p1/layer.erofs", "erofs", ["ro", "loop"]⟩,
        ⟨"overlay", "format/mkdir/overlay",
          ["workdir=/snapshots/9/work", "upperdir=/snapshots/9/fs",
           "lowerdir=" ++ tmplMount 0]⟩] ∧
    (sDir.mounts oDef fsPlain snapA1 infoExtract).1 ≠
      .ok [⟨pathStr (sDir.upperPath snapA1.id), "bind", ["rw", "rbind"]⟩] ∧
    isExtractSnapshot infoExtract = true ∧ snapA1.kind = Kind.active := by
  refine ⟨by decide, by decide, by decide, by decide⟩

/-- C5 (corrected): the diff mount — a single plain rw bind to the
snapshot's upper directory — is produced only in BLOCK mode for an Active
snapshot carrying the extract label; in directory mode the extract label is
ignored and `mounts` falls through to the ordinary `templateMounts` stack. -/
theorem c5_extract_diff_mounts (s : Snapshotter) (o : Oracle) (fs : FS)
    (snap : Snapshot) (info : SnapInfo)
    (hx : isExtractSnapshot info = true) (hk : snap.kind = Kind.active) :
    (s.blockMode = true →
      o.diffMkdirOk = true → o.diffMarkerOk = true →
      (s.mounts o fs snap info).1 =
        .ok [⟨pathStr (s.upperPath snap.id), "bind", ["rw", "rbind"]⟩]) ∧
    (s.blockMode = false →
      s.mounts o fs snap info = (s.templateMounts fs snap, fs)) := by
  constructor
  · intro hb hmk hmrk
    simp only [Snapshotter.mounts, hb, hk, and_self, if_true, hx, ite_true,
      Snapshotter.diffMounts, hmk, Bool.not_true, Bool.false_eq_true, if_false,
      ensureMarkerFile, hmrk, eq_self_iff_true]
    by_cases hpe : (fs.mkdir (s.upperPath snap.id)).pathExists
        (s.root ++ ["snapshots", snap.id] ++ [erofsLayerMarker]) = true
    · rw [if_pos hpe]
    · rw [if_neg hpe]
  · intro hb
    simp only [Snapshotter.mounts, hb, Bool.false_eq_true, false_and, if_false]

theorem lowerLoop_no_fsmeta (s : Snapshotter) (fs : FS) (snap : Snapshot) :
    ∀ (idxs : List Nat) (acc : List Mount) (first : Nat),
    (∀ i ∈ idxs,
      (if 0 < s.fsMergeThreshold then s.mountFsMeta fs snap i else none) =
        none) →
    (∀ i ∈ idxs,
      (fs.lookupFile (s.layerBlobPath (snap.parentIDs.getD i ""))).isSome = true) →
    s.lowerLoop fs snap idxs acc first =
      .ok (acc ++ idxs.map (fun i =>
        ⟨pathStr (s.layerBlobPath (snap.parentIDs.getD i "")), "erofs",
          ["ro", "loop"]⟩), first) := by
  intro idxs
  induction idxs with
  | nil =>
    intro acc first _ _
    simp [Snapshotter.lowerLoop]
  | cons i rest ih =>
    intro acc first hn h
    have hi := h i (List.mem_cons_self i rest)
    obtain ⟨bm, hbm⟩ :
        ∃ bm, fs.lookupFile (s.layerBlobPath (snap.parentIDs.getD i "")) =
          some bm := Option.isSome_iff_exists.mp hi
    simp only [Snapshotter.lowerLoop, hn i (List.mem_cons_self i rest),
      Snapshotter.lowerPath, hbm]
    rw [ih _ _ (fun j hj => hn j (List.mem_cons_of_mem i hj))
      (fun j hj => h j (List.mem_cons_of_mem i hj))]
    simp

theorem collectLower_no_fsmeta (s : Snapshotter) (fs : FS) (snap : Snapshot) :
    ∀ (idxs : List Nat) (acc : List Mount),
    (∀ i ∈ idxs,
      (if 0 < s.fsMergeThreshold then s.mountFsMeta fs snap i else none) =
        none) →
    (∀ i ∈ idxs,
      (fs.lookupFile (s.layerBlobPath (snap.parentIDs.getD i ""))).isSome = true) →
    s.collectLowerMounts fs snap idxs acc =
      .ok (acc ++ idxs.map (fun i =>
        ⟨pathStr (s.layerBlobPath (snap.parentIDs.getD i "")), "erofs",
          ["ro", "loop"]⟩)) := by
  intro idxs
  induction idxs with
  | nil =>
    intro acc _ _
    simp [Snapshotter.collectLowerMounts]
  | cons i rest ih =>
    intro acc hn h
    have hi := h i (List.mem_cons_self i rest)
    obtain ⟨bm, hbm⟩ :
        ∃ bm, fs.lookupFile (s.layerBlobPath (snap.parentIDs.getD i "")) =
          some bm := Option.isSome_iff_exists.mp hi
    simp only [Snapshotter.collectLowerMounts, hn i (List.mem_cons_self i rest),
      Snapshotter.lowerPath, hbm]
    rw [ih _ (fun j hj => hn j (List.mem_cons_of_mem i hj))
      (fun j hj => h j (List.mem_cons_of_mem i hj))]
    simp

theorem range_map_shift (lowerRoot : FPath) (i k : Nat) :
    (List.range (k + 1)).map (fun j => lowerRoot ++ [toString (i + j)]) =
      (lowerRoot ++ [toString i]) ::
        (List.range k).map (fun j => lowerRoot ++ [toString (i + 1 + j)]) := by
  rw [List.range_succ_eq_map, List.map_cons, List.map_map]
  refine congrArg₂ _ rfl ?_
  apply List.map_congr_left
  intro j _
  simp only [Function.comp, Nat.succ_eq_add_one]
  have hj : i + (j + 1) = i + 1 + j := by omega
  rw [hj]

theorem mountLowerLayers_spec (o : Oracle) (lowerRoot : FPath)
    (hmo : o.mountOk = true) (hma : ∀ p, o.mountedAt p = false) :
    ∀ (ms : List Mount) (w : World) (i : Nat),
    (mountLowerLayers o w lowerRoot ms i).1 =
      .ok ((List.range ms.length).map (fun j => lowerRoot ++ [toString (i + j)])) ∧
    (mountLowerLayers o w lowerRoot ms i).2.mounted =
      w.mounted ++ ms.zip ((List.range ms.length).map
        (fun j => lowerRoot ++ [toString (i + j)])) := by
  intro ms
  induction ms with
  | nil =>
    intro w i
    simp [mountLowerLayers]
  | cons m rest ih =>
    intro w i
    have hmt := hma (lowerRoot ++ [toString i])
    simp only [mountLowerLayers, hmt, Bool.not_false, Bool.not_true, hmo,
      Bool.true_and, Bool.false_eq_true, if_false, ite_true, and_false,
      Bool.true_eq_false, false_and, and_true, true_and]
    rcases hrec : mountLowerLayers o { w with fs := w.fs.mkdir (lowerRoot ++ [toString i]), mounted := w.mounted ++ [(m, lowerRoot ++ [toString i])] } lowerRoot rest (i + 1) with ⟨r, w3⟩
    have hih := ih { w with fs := w.fs.mkdir (lowerRoot ++ [toString i]), mounted := w.mounted ++ [(m, lowerRoot ++ [toString i])] } (i + 1)
    rw [hrec] at hih
    obtain ⟨h1, h2⟩ := hih
    simp only at h1 h2
    subst h1
    rw [List.length_cons, range_map_shift]
    constructor
    · rfl
    · simp only [h2, List.zip_cons_cons, List.append_assoc, List.cons_append,
        List.nil_append]

/-- C6 counterexample: with a positive merge threshold and a usable fsmeta
at the immediate parent, the planner's lower mounts are the single fsmeta
mount — the overlay's lowerdir no longer lists the parent chain. -/
theorem c6_counterexample :
    sFsm.templateMounts fsFsm snapA =
      .ok [⟨"/snapshots/p1/fsmeta.erofs", "erofs",
        ["ro", "loop", "device=/snapshots/p2/layer.erofs",
         "device=/snapshots/p1/layer.erofs"]⟩,
        ⟨"overlay", "format/mkdir/overlay",
          ["workdir=/snapshots/9/work", "upperdir=/snapshots/9/fs",
           "lowerdir=" ++ tmplMount 0]⟩] ∧
    sFsm.templateMounts fsFsm snapA ≠
      .ok (snapA.parentIDs.map (fun pid =>
          (⟨pathStr (sFsm.layerBlobPath pid), "erofs", ["ro", "loop"]⟩ : Mount)) ++
        [⟨"overlay", "format/mkdir/overlay",
          ["workdir=/snapshots/9/work", "upperdir=/snapshots/9/fs",
           "lowerdir=" ++ tmplOverlay 0 1]⟩]) ∧
    2 ≤ snapA.parentIDs.length := by
  refine ⟨by decide, by decide, by decide⟩

/-- C6 (corrected): when the fsmeta short-circuit cannot fire — the merge
threshold is 0, or `mountFsMeta` yields no mount at any index (no usable
`fsmeta.erofs`) — and every parent blob exists, the planner's and executor's
overlay lowerdir entries are exactly the parent chain newest-first: in
directory mode `templateMounts` emits one erofs mount per parent in
`ParentIDs` order (index 0 = immediate parent first) followed by the
overlay whose lowerdir spans them in that order, and `mountOverlay` mounts
the lowers under `lower/0 … lower/n-1` in `ParentIDs` order and joins the
overlay's `lowerdir=` left-to-right in the same order.  With a usable
fsmeta the lowerdir is instead the single fsmeta mount. -/
theorem c6_overlay_lowerdir_order (s : Snapshotter) (o : Oracle) (w : World)
    (snap : Snapshot)
    (hth : s.fsMergeThreshold = 0 ∨
      (∀ i, s.mountFsMeta w.fs snap i = none))
    (hk : snap.kind = Kind.active)
    (hn : 2 ≤ snap.parentIDs.length)
    (hblobs : ∀ pid ∈ snap.parentIDs,
      (w.fs.lookupFile (s.layerBlobPath pid)).isSome = true) :
    (s.blockMode = false →
      s.templateMounts w.fs snap =
        .ok (snap.parentIDs.map (fun pid =>
            (⟨pathStr (s.layerBlobPath pid), "erofs", ["ro", "loop"]⟩ : Mount)) ++
          [⟨"overlay", "format/mkdir/overlay",
            ["workdir=" ++ pathStr (s.workPath snap.id),
             "upperdir=" ++ pathStr (s.upperPath snap.id),
             "lowerdir=" ++ tmplOverlay 0 (snap.parentIDs.length - 1)] ++
            s.ovlOptions⟩])) ∧
    (o.mountOk = true → (∀ p, o.mountedAt p = false) →
      ∀ upperRoot upperDir workDir mergedDir,
      (s.mountOverlay o w snap upperRoot upperDir workDir mergedDir).2.mounted =
        w.mounted ++
          (snap.parentIDs.map (fun pid =>
            (⟨pathStr (s.layerBlobPath pid), "erofs", ["ro", "loop"]⟩ : Mount))).zip
            ((List.range snap.parentIDs.length).map
              (fun j => upperRoot ++ ["lower"] ++ [toString j])) ++
          [(⟨"overlay", "overlay",
             ["lowerdir=" ++ String.intercalate ":"
                (((List.range snap.parentIDs.length).map
                  (fun j => upperRoot ++ ["lower"] ++ [toString j])).map pathStr),
              "upperdir=" ++ pathStr upperDir,
              "workdir=" ++ pathStr workDir] ++ s.ovlOptions⟩, mergedDir)]) := by
  have hmem : ∀ i ∈ List.range snap.parentIDs.length,
      (w.fs.lookupFile (s.layerBlobPath (snap.parentIDs.getD i ""))).isSome = true := by
    intro i hi
    rw [List.mem_range] at hi
    rw [List.getD_eq_getElem snap.parentIDs "" hi]
    exact hblobs _ (List.getElem_mem hi)
  have hnone : ∀ i ∈ List.range snap.parentIDs.length,
      (if 0 < s.fsMergeThreshold then s.mountFsMeta w.fs snap i else none) =
        none := by
    intro i _
    rcases hth with hz | hnf
    · rw [hz]
      simp
    · by_cases hp : 0 < s.fsMergeThreshold
      · rw [if_pos hp, hnf i]
      · rw [if_neg hp]
  have hchain : (List.range snap.parentIDs.length).map (fun i =>
      (⟨pathStr (s.layerBlobPath (snap.parentIDs.getD i "")), "erofs",
        ["ro", "loop"]⟩ : Mount)) =
      snap.parentIDs.map (fun pid =>
        (⟨pathStr (s.layerBlobPath pid), "erofs", ["ro", "loop"]⟩ : Mount)) :=
    map_range_getD snap.parentIDs ""
      (fun pid => (⟨pathStr (s.layerBlobPath pid), "erofs", ["ro", "loop"]⟩ : Mount))
  constructor
  · intro hb
    have hne : ¬ (snap.parentIDs.length = 0) := by omega
    simp only [Snapshotter.templateMounts, if_neg hne]
    rw [if_pos hk]
    simp only [Snapshotter.activeLayerMounts, hb, Bool.false_eq_true, if_false,
      List.nil_append, List.length_nil]
    rw [lowerLoop_no_fsmeta s w.fs snap (List.range snap.parentIDs.length)
      [] 0 hnone hmem]
    rw [List.nil_append, hchain]
    simp only [List.length_map]
    have hc2 : ¬ (snap.parentIDs.length - 0 = 1 ∧ snap.kind = Kind.view) := by
      rintro ⟨h1, h2⟩
      rw [hk] at h2
      exact Kind.noConfusion h2
    have hc3 : ¬ (snap.parentIDs.length - 0 = 1) := by omega
    have hkv : ¬ (snap.kind = Kind.view) := by
      rw [hk]
      intro h
      exact Kind.noConfusion h
    rw [if_neg hc2, if_neg hc3, if_neg hkv]
    rfl
  · intro hmo hma upperRoot upperDir workDir mergedDir
    have hcl := collectLower_no_fsmeta s w.fs snap
      (List.range snap.parentIDs.length) [] hnone hmem
    rw [List.nil_append, hchain] at hcl
    simp only [Snapshotter.mountOverlay, hcl]
    rcases hrun : mountLowerLayers o w (upperRoot ++ ["lower"])
      (snap.parentIDs.map (fun pid =>
        (⟨pathStr (s.layerBlobPath pid), "erofs", ["ro", "loop"]⟩ : Mount))) 0
      with ⟨r, w1⟩
    have hml := mountLowerLayers_spec o (upperRoot ++ ["lower"]) hmo hma
      (snap.parentIDs.map (fun pid =>
        (⟨pathStr (s.layerBlobPath pid), "erofs", ["ro", "loop"]⟩ : Mount))) w 0
    rw [hrun] at hml
    obtain ⟨h1, h2⟩ := hml
    simp only [List.length_map, Nat.zero_add] at h1 h2
    subst h1
    simp only [hmo, Bool.not_true, Bool.false_eq_true, if_false]
    simp only [h2, List.append_assoc]

theorem c6_overlay_lowerdir_order_witness :
    (sDir.templateMounts fsPlain snapA =
      .ok (snapA.parentIDs.map (fun pid =>
          (⟨pathStr (sDir.layerBlobPath pid), "erofs", ["ro", "loop"]⟩ : Mount)) ++
        [⟨"overlay", "format/mkdir/overlay",
          ["workdir=" ++ pathStr (sDir.workPath snapA.id),
           "upperdir=" ++ pathStr (sDir.upperPath snapA.id),
           "lowerdir=" ++ tmplOverlay 0 (snapA.parentIDs.length - 1)] ++
          sDir.ovlOptions⟩])) ∧
    (sFsm.templateMounts fsPlain snapA =
      .ok (snapA.parentIDs.map (fun pid =>
          (⟨pathStr (sFsm.layerBlobPath pid), "erofs", ["ro", "loop"]⟩ : Mount)) ++
        [⟨"overlay", "format/mkdir/overlay",
          ["workdir=" ++ pathStr (sFsm.workPath snapA.id),
           "upperdir=" ++ pathStr (sFsm.upperPath snapA.id),
           "lowerdir=" ++ tmplOverlay 0 (snapA.parentIDs.length - 1)] ++
          sFsm.ovlOptions⟩])) :=
  ⟨(c6_overlay_lowerdir_order sDir oDef { fs := fsPlain, store := {} } snapA
    (Or.inl rfl) rfl (by decide)
    (by
      intro pid hpid
      fin_cases hpid
      · rfl
      · rfl)).1 rfl,
   (c6_overlay_lowerdir_order sFsm oDef { fs := fsPlain, store := {} } snapA
    (Or.inr (by
      intro i
      have hnm : fsPlain.lookupFile
          (sFsm.fsMetaPath (snapA.parentIDs.getD i "")) = none := by
        match i with
        | 0 => decide
        | 1 => decide
        | (n + 2) =>
          have hd : snapA.parentIDs.getD (n + 2) "" = "" := by
            apply List.getD_eq_default
            show 2 ≤ n + 2
            omega
          rw [hd]
          decide
      simp only [Snapshotter.mountFsMeta, hnm, ite_self]))
    rfl (by decide)
    (by
      intro pid hpid
      fin_cases hpid
      · rfl
      · rfl)).1 rfl⟩

/-- C8 counterexample: when mkfs.erofs fails (first conjunct) or a layer
blob is missing (second conjunct), `generateFsMeta` leaves the zero-size
`fsmeta.erofs` placeholder behind instead of removing it — the input had no
such file (third conjunct). -/
theorem c8_counterexample :
    (sFsm.generateFsMeta oMkfsErofsFail fsPlain ["p1", "p2"]).lookupFile
      (sFsm.fsMetaPath "p1") = some { size := 0 } ∧
    (sFsm.generateFsMeta oDef { dirs := [["snapshots"]] } ["p1", "p2"]).lookupFile
      (sFsm.fsMetaPath "p1") = some { size := 0 } ∧
    fsPlain.lookupFile (sFsm.fsMetaPath "p1") = none := by
  refine ⟨by decide, by decide, by decide⟩

/-- C8 (corrected): the fsmeta aggregator runs only when the chain length
strictly exceeds the threshold (zero threshold or `length ≤ threshold` is a
no-op), creates the placeholder with exclusive-create and returns silently
when it already exists, and on failure (missing blob or mkfs.erofs error)
it returns leaving the zero-size placeholder IN PLACE — it does not remove
it; on success the placeholder is atomically replaced by the generated
image. -/
theorem c8_generate_fsmeta_policy (s : Snapshotter) (o : Oracle) (fs : FS)
    (id0 : String) (rest : List String)
    (hth : ¬ (s.fsMergeThreshold = 0 ∨
      (id0 :: rest).length ≤ s.fsMergeThreshold)) :
    (∀ ids : List String,
      (s.fsMergeThreshold = 0 ∨ ids.length ≤ s.fsMergeThreshold) →
      s.generateFsMeta o fs ids = fs) ∧
    (fs.pathExists (s.fsMetaPath id0) = true →
      s.generateFsMeta o fs (id0 :: rest) = fs) ∧
    (fs.pathExists (s.fsMetaPath id0) = false →
      ((id0 :: rest).all (fun i =>
        ((fs.createFile (s.fsMetaPath id0) { size := 0 }).lookupFile
          (s.layerBlobPath i)).isSome) = false ∨ o.mkfsErofsOk = false) →
      (s.generateFsMeta o fs (id0 :: rest)).lookupFile (s.fsMetaPath id0) =
        some { size := 0 }) ∧
    (fs.pathExists (s.fsMetaPath id0) = false →
      (id0 :: rest).all (fun i =>
        ((fs.createFile (s.fsMetaPath id0) { size := 0 }).lookupFile
          (s.layerBlobPath i)).isSome) = true →
      o.mkfsErofsOk = true →
      (s.generateFsMeta o fs (id0 :: rest)).lookupFile (s.fsMetaPath id0) =
        some { size := o.mkfsErofsSize }) := by
  refine ⟨?_, ?_, ?_, ?_⟩
  · intro ids hids
    simp only [Snapshotter.generateFsMeta, if_pos hids]
  · intro hpe
    simp only [Snapshotter.generateFsMeta, if_neg hth, hpe, ite_true]
  · intro hpe hfail
    simp only [Snapshotter.generateFsMeta, if_neg hth, hpe, Bool.false_eq_true,
      if_false]
    rcases hfail with hall | hmk
    · simp only [hall, Bool.not_false, if_true]
      exact FS.lookupFile_createFile_self fs _ _
    · by_cases hall : ((id0 :: rest).all (fun i =>
          ((fs.createFile (s.fsMetaPath id0) { size := 0 }).lookupFile
            (s.layerBlobPath i)).isSome)) = true
      · simp only [hall, Bool.not_true, Bool.false_eq_true, if_false, hmk,
          Bool.not_false, if_true]
        exact FS.lookupFile_createFile_self fs _ _
      · rw [Bool.not_eq_true] at hall
        simp only [hall, Bool.not_false, if_true]
        exact FS.lookupFile_createFile_self fs _ _
  · intro hpe hall hok
    simp only [Snapshotter.generateFsMeta, if_neg hth, hpe, Bool.false_eq_true,
      if_false, hall, Bool.not_true, hok]
    exact FS.lookupFile_createFile_self _ _ _

theorem c8_generate_fsmeta_policy_witness :
    (sFsm.generateFsMeta oMkfsErofsFail fsPlain ["p1", "p2"]).lookupFile
      (sFsm.fsMetaPath "p1") = some { size := 0 } :=
  (c8_generate_fsmeta_policy sFsm oMkfsErofsFail fsPlain "p1" ["p2"]
    (by decide)).2.2.1 (by decide) (Or.inr rfl)

/-- C10 (confirmed): with the set-immutable option enabled and the layer
blob already present, a failure to set `FS_IMMUTABLE_FL` does not fail the
Commit — the snapshot is still committed (first conjunct); whereas when
fsverity is configured and enabling it fails, Commit returns that error
and the store is left unchanged (second conjunct). -/
theorem c10_commit_immutable_nonfatal (s : Snapshotter) (o : Oracle)
    (w : World) (name key : String) (labels : List (String × String))
    (info : SnapInfo) (bi : FileMeta) (st1 : Store)
    (hgi : storageGetInfo w.store key = .ok info)
    (hblob : w.fs.lookupFile (s.layerBlobPath info.id) = some bi)
    (himm : s.setImmutable = true) :
    (s.enableFsverity = false → o.immutableOk = false → o.txCommitOk = true →
      storageCommitActive w.store key name bi.size labels = .ok st1 →
      (s.Commit o w name key labels).1 = .ok () ∧
      (s.Commit o w name key labels).2.store = st1) ∧
    (s.enableFsverity = true → o.fsverityOk = false →
      (s.Commit o w name key labels).1 =
        .error (.sys "failed to enable fsverity") ∧
      (s.Commit o w name key labels).2.store = w.store) := by
  constructor
  · intro henf himf htx hca
    simp only [Snapshotter.Commit, hgi, hblob, Option.isSome_some, ite_true,
      henf, Bool.false_eq_true, if_false, himm, himf, hca, htx]
    exact ⟨by trivial, by trivial⟩
  · intro henf hvf
    simp only [Snapshotter.Commit, hgi, hblob, Option.isSome_some, ite_true,
      henf, fsverityEnable, hvf, Bool.false_eq_true, if_false]
    exact ⟨by trivial, by trivial⟩

theorem c10_commit_immutable_nonfatal_witness :
    (sImm.Commit oImmFail wActive "layer1" "k" []).1 = .ok () ∧
    (sImmFv.Commit oVerFail wActive "layer1" "k" []).1 =
      .error (.sys "failed to enable fsverity") := by
  constructor
  · exact ((c10_commit_immutable_nonfatal sImm oImmFail wActive "layer1" "k" []
      ⟨"1", Kind.active, "", [], []⟩ { size := 7 }
      { recs := [("layer1", ⟨"1", Kind.committed, "", [], []⟩)], nextID := 2 }
      rfl rfl rfl).1 rfl rfl rfl (by decide)).1
  · exact ((c10_commit_immutable_nonfatal sImmFv oVerFail wActive "layer1" "k" []
      ⟨"1", Kind.active, "", [], []⟩ { size := 7 } { recs := [], nextID := 0 }
      rfl rfl rfl).2 rfl rfl).1

theorem labelGet_labelSet_self (ls : List (String × String)) (k v : String) :
    labelGet (labelSet ls k v) k = some v := by
  simp [labelGet, labelSet, List.find?_cons]

theorem find?_filter_of_pred {α : Type} (l : List α) (pred f : α → Bool)
    (h : ∀ e, pred e = true → f e = true) :
    (l.filter f).find? pred = l.find? pred := by
  induction l with
  | nil => rfl
  | cons a t ih =>
    by_cases hp : pred a = true
    · have hf := h a hp
      simp [List.filter_cons, hf, List.find?_cons, hp]
    · by_cases hf : f a = true
      · simp [List.filter_cons, hf, List.find?_cons, hp, ih]
      · simp only [Bool.not_eq_true] at hp hf
        simp [List.filter_cons, hf, List.find?_cons, hp, ih]

theorem lookupFile_removeChildren_ne (fs : FS) (p q : FPath) (h : ¬ q <+: p) :
    (fs.removeChildren q).lookupFile p = fs.lookupFile p := by
  simp only [FS.removeChildren, FS.lookupFile]
  rw [find?_filter_of_pred]
  intro e hpred
  have hep : e.1 = p := by simpa using hpred
  rw [hep]
  have hq : q.isPrefixOf p = false := by
    rw [isPrefixOf_eq_decide]
    simpa using h
  simp [hq]

theorem fs_ne_snapshot_name (id : String) :
    "fs" ≠ "snapshot-" ++ id ++ ".erofs" := by
  intro h
  have hl := congrArg String.length h
  rw [String.length_append, String.length_append] at hl
  have e1 : ("fs" : String).length = 2 := rfl
  have e2 : ("snapshot-" : String).length = 9 := rfl
  have e3 : (".erofs" : String).length = 6 := rfl
  rw [e1, e2, e3] at hl
  omega

theorem lookupFile_isSome_of_find? (fs : FS) (pred : FPath × FileMeta → Bool)
    (e : FPath × FileMeta) (h : fs.files.find? pred = some e) :
    (fs.lookupFile e.1).isSome = true := by
  have hmem := List.mem_of_find?_eq_some h
  have hfind : (fs.files.find? (fun x => x.1 == e.1)).isSome = true :=
    List.find?_isSome.mpr ⟨e, hmem, by simp⟩
  rcases ho : fs.files.find? (fun x => x.1 == e.1) with _ | x
  · rw [ho] at hfind
    cases hfind
  · simp [FS.lookupFile, ho]

theorem findLayerBlobFromInfo_isSome (root : FPath) (fs : FS) (id : String)
    (info : SnapInfo) (p : FPath)
    (h : Nexus.findLayerBlobFromInfo root fs id info = some p) :
    (fs.lookupFile p).isSome = true := by
  simp only [Nexus.findLayerBlobFromInfo] at h
  rcases hl : labelGet info.labels Nexus.LabelLayerBlobPath with _ | v
  · rw [hl] at h
    simp only [] at h
    rcases hg : fs.files.find? (fun e => Nexus.globErofs root id e.1) with _ | e
    · rw [hg] at h
      cases h
    · rw [hg] at h
      simp only [Option.map_some'] at h
      have hp : e.1 = p := Option.some.inj h
      rw [← hp]
      exact lookupFile_isSome_of_find? fs _ e hg
  · rw [hl] at h
    simp only [] at h
    by_cases hv : v ≠ ""
    · rw [if_pos hv] at h
      rcases hf : fs.files.find? (fun e => pathStr e.1 == v) with _ | e
      · rw [hf] at h
        simp only [Option.map_none'] at h
        rcases hg : fs.files.find? (fun e => Nexus.globErofs root id e.1) with _ | e
        · rw [hg] at h
          cases h
        · rw [hg] at h
          simp only [Option.map_some'] at h
          have hp : e.1 = p := Option.some.inj h
          rw [← hp]
          exact lookupFile_isSome_of_find? fs _ e hg
      · rw [hf] at h
        simp only [Option.map_some'] at h
        have hp : e.1 = p := Option.some.inj h
        rw [← hp]
        exact lookupFile_isSome_of_find? fs _ e hf
    · rw [if_neg hv] at h
      simp only [] at h
      rcases hg : fs.files.find? (fun e => Nexus.globErofs root id e.1) with _ | e
      · rw [hg] at h
        cases h
      · rw [hg] at h
        simp only [Option.map_some'] at h
        have hp : e.1 = p := Option.some.inj h
        rw [← hp]
        exact lookupFile_isSome_of_find? fs _ e hg

theorem storageCommitActive_lookup (st : Store) (key name : String)
    (usage : Nat) (labels : List (String × String)) (st1 : Store)
    (h : storageCommitActive st key name usage labels = .ok st1) :
    ∃ r, st1.lookup name = some r ∧ r.labels = labels := by
  unfold storageCommitActive at h
  rcases hk : st.lookup key with _ | r
  · rw [hk] at h
    cases h
  · rw [hk] at h
    simp only [] at h
    by_cases h1 : r.kind ≠ Kind.active
    · rw [if_pos h1] at h
      cases h
    · rw [if_neg h1] at h
      by_cases h2 : (st.lookup name).isSome = true
      · rw [if_pos h2] at h
        cases h
      · rw [if_neg h2] at h
        have h3 := Except.ok.inj h
        subst h3
        exact ⟨_, Store.lookup_cons_self _ _ _ _, rfl⟩

/-- C3 (confirmed, against the spec-modelled internal Commit): every
successful Commit — whether the blob was found by `findLayerBlobFromInfo`
(differ-produced) or produced by converting the upper directory — leaves
the record committed under `name` carrying a `layer-blob-path` label that
names an existing file in the resulting filesystem. -/
theorem c3_commit_sets_layer_blob_path (root : FPath) (o : Oracle) (w : World)
    (name key : String)
    (hok : (Nexus.Commit root o w name key).1 = .ok ()) :
    ∃ p info1,
      (Nexus.Commit root o w name key).2.store.lookup name = some info1 ∧
      labelGet info1.labels Nexus.LabelLayerBlobPath = some (pathStr p) ∧
      ((Nexus.Commit root o w name key).2.fs.lookupFile p).isSome = true := by
  unfold Nexus.Commit at hok ⊢
  rcases hgi : storageGetInfo w.store key with e | info
  · rw [hgi] at hok
    simp only [] at hok
    cases hok
  · rw [hgi] at hok
    simp only [] at hok ⊢
    rcases hfb : Nexus.findLayerBlobFromInfo root w.fs info.id info with _ | p
    · rw [hfb] at hok
      simp only [] at hok ⊢
      rcases hres : o.convertRes with e2 | size
      · simp only [convertDirToErofs, hres] at hok
        cases hok
      · simp only [convertDirToErofs, hres] at hok ⊢
        by_cases hde : (w.fs.createFile (Nexus.fallbackLayerBlobPath root info.id)
            { size := size }).dirExists (root ++ ["snapshots", info.id, "fs"]) = true
        · rw [hde] at hok ⊢
          simp only [Bool.not_true, Bool.false_eq_true, if_false] at hok ⊢
          rcases hca : storageCommitActive w.store key name
              ((Option.map (fun m => m.size)
                (((w.fs.createFile (Nexus.fallbackLayerBlobPath root info.id)
                  { size := size }).removeChildren
                  (root ++ ["snapshots", info.id, "fs"])).lookupFile
                  (Nexus.fallbackLayerBlobPath root info.id))).getD 0)
              (labelSet info.labels Nexus.LabelLayerBlobPath
                (pathStr (Nexus.fallbackLayerBlobPath root info.id)))
              with e | st1
          · rw [hca] at hok
            simp only [] at hok
            cases hok
          · rw [hca] at hok
            rw [hca]
            simp only [] at hok ⊢
            by_cases htx : o.txCommitOk = true
            · rw [if_pos htx] at hok ⊢
              simp only [] at hok ⊢
              obtain ⟨r, hr, hrl⟩ := storageCommitActive_lookup _ _ _ _ _ _ hca
              refine ⟨Nexus.fallbackLayerBlobPath root info.id, r, hr, ?_, ?_⟩
              · rw [hrl]
                exact labelGet_labelSet_self _ _ _
              · have hnp : ¬ (root ++ ["snapshots", info.id, "fs"]) <+:
                    (Nexus.fallbackLayerBlobPath root info.id) := by
                  have ha : root ++ ["snapshots", info.id, "fs"] =
                      (root ++ ["snapshots", info.id]) ++ ["fs"] := by simp
                  have hb : Nexus.fallbackLayerBlobPath root info.id =
                      (root ++ ["snapshots", info.id]) ++
                        ["snapshot-" ++ info.id ++ ".erofs"] := by
                    simp [Nexus.fallbackLayerBlobPath]
                  rw [ha, hb]
                  exact diverge_last (fs_ne_snapshot_name info.id)
                rw [lookupFile_removeChildren_ne _ _ _ hnp,
                  FS.lookupFile_createFile_self]
                rfl
            · rw [if_neg htx] at hok
              cases hok
        · simp only [Bool.not_eq_true] at hde
          rw [hde] at hok
          simp only [Bool.not_false, if_true] at hok
          cases hok
    · rw [hfb] at hok
      simp only [] at hok ⊢
      rcases hca : storageCommitActive w.store key name
          ((Option.map (fun m => m.size) (w.fs.lookupFile p)).getD 0)
          (labelSet info.labels Nexus.LabelLayerBlobPath (pathStr p))
          with e | st1
      · rw [hca] at hok
        simp only [] at hok
        cases hok
      · rw [hca] at hok
        rw [hca]
        simp only [] at hok ⊢
        by_cases htx : o.txCommitOk = true
        · rw [if_pos htx] at hok ⊢
          simp only [] at hok ⊢
          obtain ⟨r, hr, hrl⟩ := storageCommitActive_lookup _ _ _ _ _ _ hca
          refine ⟨p, r, hr, ?_, ?_⟩
          · rw [hrl]
            exact labelGet_labelSet_self _ _ _
          · exact findLayerBlobFromInfo_isSome root w.fs info.id info p hfb
        · rw [if_neg htx] at hok
          cases hok

theorem c3_commit_sets_layer_blob_path_witness :
    ∃ p info1,
      (Nexus.Commit [] oDef wActive "layer1" "k").2.store.lookup "layer1" =
        some info1 ∧
      labelGet info1.labels Nexus.LabelLayerBlobPath = some (pathStr p) ∧
      ((Nexus.Commit [] oDef wActive "layer1" "k").2.fs.lookupFile p).isSome =
        true :=
  c3_commit_sets_layer_blob_path [] oDef wActive "layer1" "k" (by decide)

namespace LayerOrder

theorem jsonPlain_spec (c : Char) (h : jsonPlain c = true) :
    ¬ c = '"' ∧ ¬ c = '\\' ∧ ¬ c.toNat < 32 ∧ ¬ c = '<' ∧ ¬ c = '>' ∧
    ¬ c = '&' ∧ ¬ (c.toNat = 0x2028) ∧ ¬ (c.toNat = 0x2029) ∧
    ¬ c = '\n' ∧ ¬ c = '\r' ∧ ¬ c = '\t' := by
  simp only [jsonPlain, Bool.and_eq_true, bne_iff_ne, ne_eq,
    decide_eq_true_eq] at h
  obtain ⟨⟨⟨⟨⟨⟨⟨hq, hbs⟩, h32⟩, hlt⟩, hgt⟩, hamp⟩, h28⟩, h29⟩ := h
  refine ⟨hq, hbs, by omega, hlt, hgt, hamp, h28, h29, ?_, ?_, ?_⟩
  · intro hc
    rw [hc] at h32
    have he : ('\n').toNat = 10 := rfl
    omega
  · intro hc
    rw [hc] at h32
    have he : ('\r').toNat = 13 := rfl
    omega
  · intro hc
    rw [hc] at h32
    have he : ('\t').toNat = 9 := rfl
    omega

theorem jsonEscapeChar_plain (c : Char) (h : jsonPlain c = true) :
    jsonEscapeChar c = [c] := by
  obtain ⟨h1, h2, h3, h4, h5, h6, h7, h8, h9, h10, h11⟩ := jsonPlain_spec c h
  unfold jsonEscapeChar
  rw [if_neg h1, if_neg h2, if_neg h9, if_neg h10, if_neg h11, if_neg h4,
    if_neg h5, if_neg h6, if_neg h3, if_neg h7, if_neg h8]

theorem flatten_escape_plain : ∀ (l : List Char), l.all jsonPlain = true →
    (l.map jsonEscapeChar).flatten = l := by
  intro l
  induction l with
  | nil => intro _; rfl
  | cons c t ih =>
    intro h
    rw [List.all_cons, Bool.and_eq_true] at h
    rw [List.map_cons, List.flatten_cons, jsonEscapeChar_plain c h.1, ih h.2]
    rfl

theorem parseStringBody_cons_plain (c : Char) (cs : List Char)
    (h1 : ¬ c = '"') (h2 : ¬ c = '\\') (h3 : ¬ c.toNat < 32) :
    parseStringBody (c :: cs) =
      match parseStringBody cs with
      | none => none
      | some (body, tail) => some (c :: body, tail) := by
  rw [parseStringBody.eq_def]
  split
  · rename_i heq
    simp at heq
  · rename_i r heq
    injection heq with ha hb
    exact absurd ha h1
  · rename_i a b d e r heq
    injection heq with ha hb
    exact absurd ha h2
  · rename_i hne e r heq
    injection heq with ha hb
    exact absurd ha h2
  · rename_i hne c2 r heq
    injection heq with ha hb
    subst ha
    subst hb
    rw [if_neg h3]

theorem parseStringBody_plain : ∀ (body : List Char),
    body.all jsonPlain = true →
    ∀ rest, parseStringBody (body ++ '"' :: rest) = some (body, rest) := by
  intro body
  induction body with
  | nil =>
    intro _ rest
    rfl
  | cons c t ih =>
    intro hb rest
    rw [List.all_cons, Bool.and_eq_true] at hb
    obtain ⟨h1, h2, h3, _⟩ := jsonPlain_spec c hb.1
    rw [List.cons_append, parseStringBody_cons_plain c _ h1 h2 h3,
      ih hb.2 rest]

theorem parseElem_quote (s : String) (hs : s.data.all jsonPlain = true)
    (x : List Char) :
    parseElem (jsonQuote s.data ++ x) = some (s, x) := by
  have hq : jsonQuote s.data ++ x = '"' :: (s.data ++ '"' :: x) := by
    rw [jsonQuote, flatten_escape_plain s.data hs]
    simp [List.append_assoc]
  rw [hq]
  show (match parseStringBody (s.data ++ '"' :: x) with
    | none => none
    | some (body, tail) => some ((⟨body⟩ : String), tail)) = some (s, x)
  rw [parseStringBody_plain s.data hs x]

theorem skipWs_cons (c : Char) (l : List Char) (h : isWsChar c = false) :
    skipWs (c :: l) = c :: l := by
  simp [skipWs, List.dropWhile_cons, h]

theorem jsonQuote_length (l : List Char) :
    (jsonQuote l).length = (l.map jsonEscapeChar).flatten.length + 2 := by
  simp [jsonQuote]

theorem joinItems_length_ge : ∀ (strs : List String),
    strs.length ≤
      (joinItems (strs.map (fun s => jsonQuote s.data))).length + 1 := by
  intro strs
  induction strs with
  | nil => simp [joinItems]
  | cons s t ih =>
    rcases t with _ | ⟨s2, t2⟩
    · simp [joinItems]
    · rw [List.map_cons, List.map_cons, joinItems]
      rw [List.map_cons] at ih
      have h2 : 2 ≤ (jsonQuote s.data).length := by
        rw [jsonQuote_length]
        omega
      simp only [List.length_cons, List.length_append]
      simp only [List.length_cons] at ih
      omega

theorem parseElems_join : ∀ (strs : List String), strs ≠ [] →
    (∀ s ∈ strs, s.data.all jsonPlain = true) →
    ∀ fuel, strs.length ≤ fuel →
    parseElems fuel
        (joinItems (strs.map (fun s => jsonQuote s.data)) ++ [']']) =
      some (strs, []) := by
  intro strs
  induction strs with
  | nil => intro h; exact absurd rfl h
  | cons s t ih =>
    intro _ hall fuel hf
    rcases fuel with _ | f
    · simp at hf
    · rcases t with _ | ⟨s2, t2⟩
      · show parseElems (f + 1) (jsonQuote s.data ++ [']']) = some ([s], [])
        have hsk : skipWs (jsonQuote s.data ++ [']']) =
            jsonQuote s.data ++ [']'] := by
          rw [jsonQuote, List.cons_append]
          exact skipWs_cons _ _ (by decide)
        simp only [parseElems, hsk,
          parseElem_quote s (hall s (List.mem_cons_self s [])) [']']]
        rfl
      · rw [List.map_cons, List.map_cons, joinItems]
        have hre : (jsonQuote s.data ++
            ',' :: joinItems (jsonQuote s2.data :: t2.map
              (fun s => jsonQuote s.data))) ++ [']'] =
            jsonQuote s.data ++ (',' ::
              (joinItems ((s2 :: t2).map (fun s => jsonQuote s.data)) ++
                [']'])) := by
          rw [List.append_assoc, List.cons_append, List.map_cons]
        rw [hre]
        have hsk : skipWs (jsonQuote s.data ++ (',' ::
            (joinItems ((s2 :: t2).map (fun s => jsonQuote s.data)) ++
              [']']))) =
            jsonQuote s.data ++ (',' ::
              (joinItems ((s2 :: t2).map (fun s => jsonQuote s.data)) ++
                [']'])) := by
          rw [jsonQuote, List.cons_append]
          exact skipWs_cons _ _ (by decide)
        simp only [parseElems, hsk,
          parseElem_quote s (hall s (List.mem_cons_self s (s2 :: t2))) _]
        rw [skipWs_cons ',' _ (by decide)]
        have hrec := ih (by simp) (fun x hx => hall x (List.mem_cons_of_mem s hx))
          f (by simpa using Nat.le_of_succ_le_succ hf)
        split
        · rename_i tail heq
          injection heq with ha hb
          exact absurd ha (by decide)
        · rename_i tail heq
          injection heq with ha hb
          subst hb
          rw [hrec]
        · rename_i hn1 hn2
          exact absurd rfl (hn2 _)

theorem unmarshal_of_parse (l l2 : List Char) (strs : List String)
    (hl : l = '"' :: l2)
    (hp : parseElems (l.length + 1) l = some (strs, [])) :
    unmarshalStringArray ⟨'[' :: l⟩ = some strs := by
  unfold unmarshalStringArray
  rw [show (⟨'[' :: l⟩ : String).data = '[' :: l from rfl,
    skipWs_cons '[' l (by decide)]
  split
  · rename_i rest heq
    injection heq with h1 h2
    subst h2
    rw [hl, skipWs_cons '"' l2 (by decide)]
    rw [hl] at hp
    simp only []
    split
    · rename_i tail heq2
      injection heq2 with h3 h4
      exact absurd h3 (by decide)
    · rw [hp]
      rfl
  · rename_i tail heq
    injection heq with h1 h2
    exact absurd h1 (by decide)
  · rename_i hne2 hne3
    exact absurd rfl (hne2 l)

theorem joinItems_head (s : String) (t : List String) :
    ∃ R, joinItems ((s :: t).map (fun x => jsonQuote x.data)) =
      jsonQuote s.data ++ R := by
  rcases t with _ | ⟨s2, t2⟩
  · exact ⟨[], by simp [joinItems]⟩
  · refine ⟨',' :: joinItems ((s2 :: t2).map (fun x => jsonQuote x.data)), ?_⟩
    rfl

theorem unmarshal_marshal (strs : List String) (hne : strs ≠ [])
    (hall : ∀ s ∈ strs, s.data.all jsonPlain = true) :
    unmarshalStringArray (jsonMarshalStrings strs) = some strs := by
  rcases strs with _ | ⟨s, t⟩
  · exact absurd rfl hne
  · obtain ⟨R, hR⟩ := joinItems_head s t
    have hm : jsonMarshalStrings (s :: t) =
        ⟨'[' :: (joinItems ((s :: t).map (fun x => jsonQuote x.data)) ++
          [']'])⟩ := by
      rfl
    rw [hm]
    have hl2 : joinItems ((s :: t).map (fun x => jsonQuote x.data)) ++ [']'] =
        '"' :: ((s.data.map jsonEscapeChar).flatten ++ ['"'] ++ (R ++ [']'])) := by
      rw [hR, jsonQuote]
      simp [List.append_assoc]
    refine unmarshal_of_parse _ _ (s :: t) hl2 ?_
    have hfuel : (s :: t).length ≤
        (joinItems ((s :: t).map (fun x => jsonQuote x.data)) ++
          [']']).length + 1 := by
      have := joinItems_length_ge (s :: t)
      rw [List.length_append]
      omega
    exact parseElems_join (s :: t) (by simp) hall _ hfuel

theorem splitFirstColon_cons (c : Char) (rest : List Char) :
    splitFirstColon (c :: rest) =
      if c = ':' then some ([], rest)
      else match splitFirstColon rest with
        | none => none
        | some (a, b) => some (c :: a, b) := by
  by_cases hc : c = ':'
  · subst hc
    simp [splitFirstColon]
  · rw [if_neg hc]
    rw [splitFirstColon.eq_def]
    split
    · rename_i heq
      simp at heq
    · rename_i r heq
      injection heq with h1 h2
      exact absurd h1 hc
    · rename_i h2 c2 r heq
      injection heq with ha hb
      subst ha
      subst hb
      rfl

theorem splitFirstColon_eq : ∀ (cs a b : List Char),
    splitFirstColon cs = some (a, b) → cs = a ++ ':' :: b := by
  intro cs
  induction cs with
  | nil =>
    intro a b h
    cases h
  | cons c rest ih =>
    intro a b h
    rw [splitFirstColon_cons] at h
    by_cases hc : c = ':'
    · rw [if_pos hc] at h
      injection h with h1
      rw [Prod.mk.injEq] at h1
      obtain ⟨ha, hb⟩ := h1
      subst ha
      subst hb
      subst hc
      rfl
    · rw [if_neg hc] at h
      rcases hsp : splitFirstColon rest with _ | ⟨a2, b2⟩
      · rw [hsp] at h
        cases h
      · rw [hsp] at h
        injection h with h1
        rw [Prod.mk.injEq] at h1
        obtain ⟨ha, hb⟩ := h1
        subst ha
        subst hb
        rw [List.cons_append, ih a2 b2 hsp]

theorem algoHexLen_names (a : String) (n : Nat) (h : algoHexLen a = some n) :
    a = "sha256" ∨ a = "sha384" ∨ a = "sha512" := by
  unfold algoHexLen at h
  by_cases h1 : a = "sha256"
  · exact Or.inl h1
  · rw [if_neg h1] at h
    by_cases h2 : a = "sha384"
    · exact Or.inr (Or.inl h2)
    · rw [if_neg h2] at h
      by_cases h3 : a = "sha512"
      · exact Or.inr (Or.inr h3)
      · rw [if_neg h3] at h
        cases h

theorem hex_jsonPlain (c : Char) (h : isHexLowerDigit c = true) :
    jsonPlain c = true := by
  simp only [isHexLowerDigit, Bool.or_eq_true, Bool.and_eq_true,
    decide_eq_true_eq] at h
  have hb : (97 ≤ c.toNat ∧ c.toNat ≤ 102) ∨ (48 ≤ c.toNat ∧ c.toNat ≤ 57) := by
    rcases h with ⟨h1, h2⟩ | ⟨h1, h2⟩
    · exact Or.inl ⟨Char.le_def.mp h1, Char.le_def.mp h2⟩
    · exact Or.inr ⟨Char.le_def.mp h1, Char.le_def.mp h2⟩
  simp only [jsonPlain, Bool.and_eq_true, bne_iff_ne, ne_eq,
    decide_eq_true_eq]
  refine ⟨⟨⟨⟨⟨⟨⟨?_, ?_⟩, ?_⟩, ?_⟩, ?_⟩, ?_⟩, ?_⟩, ?_⟩
  · intro hc
    rw [hc] at hb
    have he : ('"').toNat = 34 := rfl
    omega
  · intro hc
    rw [hc] at hb
    have he : ('\\').toNat = 92 := rfl
    omega
  · omega
  · intro hc
    rw [hc] at hb
    have he : ('<').toNat = 60 := rfl
    omega
  · intro hc
    rw [hc] at hb
    have he : ('>').toNat = 62 := rfl
    omega
  · intro hc
    rw [hc] at hb
    have he : ('&').toNat = 38 := rfl
    omega
  · omega
  · omega

theorem digestValid_plain (s : String) (h : digestValid s = true) :
    s.data.all jsonPlain = true := by
  unfold digestValid at h
  rcases hsp : splitFirstColon s.data with _ | ⟨alg, enc⟩
  · rw [hsp] at h
    cases h
  · rw [hsp] at h
    simp only [] at h
    rcases hal : algoHexLen ⟨alg⟩ with _ | n
    · rw [hal] at h
      simp at h
    · rw [hal] at h
      simp only [Bool.and_eq_true, decide_eq_true_eq, bne_iff_ne, ne_eq] at h
      obtain ⟨⟨ha, he⟩, hlen, hhex⟩ := h
      have hdata := splitFirstColon_eq s.data alg enc hsp
      rw [hdata, List.all_append, List.all_cons, Bool.and_eq_true,
        Bool.and_eq_true]
      refine ⟨?_, ?_, ?_⟩
      · rcases algoHexLen_names ⟨alg⟩ n hal with h6 | h6 | h6
        · have h7 : alg = "sha256".data := congrArg String.data h6
          rw [h7]
          decide
        · have h7 : alg = "sha384".data := congrArg String.data h6
          rw [h7]
          decide
        · have h7 : alg = "sha512".data := congrArg String.data h6
          rw [h7]
          decide
      · decide
      · exact List.all_eq_true.mpr
          (fun c hc => hex_jsonPlain c (List.all_eq_true.mp hhex c hc))

theorem joinItems_ge2 (s0 : String) (t0 : List String) :
    2 ≤ (joinItems ((s0 :: t0).map (fun s => jsonQuote s.data))).length := by
  rcases t0 with _ | ⟨s2, t2⟩
  · show 2 ≤ (jsonQuote s0.data).length
    rw [jsonQuote_length]
    omega
  · show 2 ≤ ((jsonQuote s0.data) ++
      ',' :: joinItems ((s2 :: t2).map (fun s => jsonQuote s.data))).length
    rw [List.length_append, List.length_cons]
    have := jsonQuote_length s0.data
    omega

theorem marshal_ne (s0 : String) (t0 : List String) :
    jsonMarshalStrings (s0 :: t0) ≠ "" ∧
    jsonMarshalStrings (s0 :: t0) ≠ "[]" := by
  have hlen : (jsonMarshalStrings (s0 :: t0)).length =
      (joinItems ((s0 :: t0).map (fun s => jsonQuote s.data))).length + 2 := by
    show (('[' :: joinItems ((s0 :: t0).map (fun s => jsonQuote s.data))) ++
      [']']).length = _
    simp
  have hge := joinItems_ge2 s0 t0
  constructor
  · intro hc
    have hd := congrArg String.length hc
    rw [hlen] at hd
    have h0 : ("" : String).length = 0 := rfl
    omega
  · intro hc
    have hd := congrArg String.length hc
    rw [hlen] at hd
    have h0 : ("[]" : String).length = 2 := rfl
    omega

theorem decode_marshal (strs : List String)
    (hall : ∀ s ∈ strs, s.data.all jsonPlain = true) :
    DecodeLayerOrder (jsonMarshalStrings strs) = strs.filter digestValid := by
  rcases strs with _ | ⟨s, t⟩
  · decide
  · obtain ⟨hne1, hne2⟩ := marshal_ne s t
    unfold DecodeLayerOrder
    rw [if_neg (not_or.mpr ⟨hne1, hne2⟩),
      unmarshal_marshal (s :: t) (by simp) hall]

theorem encode_decode (ds : List String) (h : ds.all digestValid = true) :
    DecodeLayerOrder (EncodeLayerOrder ds) = ds := by
  unfold EncodeLayerOrder
  by_cases hne : ds = []
  · subst hne
    decide
  · rw [if_neg hne,
      decode_marshal ds (fun s hs => digestValid_plain s (List.all_eq_true.mp h s hs))]
    exact List.filter_eq_self.mpr (fun a ha => List.all_eq_true.mp h a ha)

/-- C9 (confirmed): encoding a list of valid digests and decoding returns
the same list; decoding the empty string or the literal empty array returns
an empty result; decoding invalid JSON returns an empty result; and
decoding any JSON string array keeps exactly the entries `digest.Parse`
accepts, in order (so individually invalid digests are skipped). -/
theorem c9_layer_order_roundtrip :
    (∀ ds : List String, ds.all digestValid = true →
      DecodeLayerOrder (EncodeLayerOrder ds) = ds) ∧
    DecodeLayerOrder "" = [] ∧
    DecodeLayerOrder "[]" = [] ∧
    DecodeLayerOrder "not json" = [] ∧
    (∀ strs : List String, (∀ s ∈ strs, s.data.all jsonPlain = true) →
      DecodeLayerOrder (jsonMarshalStrings strs) = strs.filter digestValid) :=
  ⟨encode_decode, by decide, by decide, by decide, decode_marshal⟩

theorem c9_layer_order_roundtrip_witness :
    DecodeLayerOrder (EncodeLayerOrder
      ["sha256:e3b0c44298fc1c149afbf4c8996fb92427ae41e4649b934ca495991b7852b855",
       "sha256:2222222222222222222222222222222222222222222222222222222222222222"]) =
      ["sha256:e3b0c44298fc1c149afbf4c8996fb92427ae41e4649b934ca495991b7852b855",
       "sha256:2222222222222222222222222222222222222222222222222222222222222222"] ∧
    DecodeLayerOrder (jsonMarshalStrings
      ["sha256:e3b0c44298fc1c149afbf4c8996fb92427ae41e4649b934ca495991b7852b855",
       "not-a-digest"]) =
      ["sha256:e3b0c44298fc1c149afbf4c8996fb92427ae41e4649b934ca495991b7852b855"] :=
  ⟨c9_layer_order_roundtrip.1 _ (by decide),
   by
     rw [c9_layer_order_roundtrip.2.2.2.2 _ (by decide)]
     decide⟩

end LayerOrder

theorem c5_extract_diff_mounts_witness :
    (sBlk.mounts oDef fsPlain snapA1 infoExtract).1 =
      .ok [⟨pathStr (sBlk.upperPath snapA1.id), "bind", ["rw", "rbind"]⟩] :=
  (c5_extract_diff_mounts sBlk oDef fsPlain snapA1 infoExtract (by decide)
    rfl).1 rfl rfl rfl

end Erofs
